import Mathlib

/-!
Verification of the SC2_DBN entity-lifecycle tracking and wide-table
construction subsystem (`src_new/`), via a shallow embedding of the Python
source into Lean.

Conventions of the embedding:
* Python dicts are association lists with insertion-order semantics:
  updating an existing key rewrites it in place, a new key is appended.
* Python scalars (ints, floats, strings, bools, None, NaN) live in the
  `Value` type; float arithmetic that matters only as data plumbing is
  carried as exact rationals.
* Python sets that are used only through membership tests are carried as
  lists; only membership is ever consulted.
* f-string formatting of nonnegative integers is embedded by an explicit
  decimal renderer (`natToDec`, `pad3`).
-/

namespace SC2

/-- Model of the Python scalar values that flow through the extraction
pipeline: NaN, None, ints, floats (as exact rationals), strings, bools,
and lists of strings (the `Messages` cell). -/
inductive Value where
  | vNan : Value
  | vNull : Value
  | vInt : Int → Value
  | vRat : Rat → Value
  | vStr : String → Value
  | vBool : Bool → Value
  | vStrList : List String → Value
deriving DecidableEq

/-- Python `dict.get(k)`: the value at the first (unique) binding of `k`. -/
def aget {κ α : Type} [DecidableEq κ] (l : List (κ × α)) (k : κ) : Option α :=
  (l.find? (fun p => decide (p.1 = k))).map (·.2)

/-- Python `d[k] = v`: rewrite the binding in place if the key exists,
append a new binding otherwise (insertion-order semantics). -/
def aset {κ α : Type} [DecidableEq κ] (l : List (κ × α)) (k : κ) (v : α) : List (κ × α) :=
  if (l.find? (fun p => decide (p.1 = k))).isSome then
    l.map (fun p => if p.1 = k then (k, v) else p)
  else
    l ++ [(k, v)]

/-- Python `k in d`. -/
def amem {κ α : Type} [DecidableEq κ] (l : List (κ × α)) (k : κ) : Bool :=
  (aget l k).isSome

/-- The keys of a dict, in insertion order. -/
def akeys {κ α : Type} [DecidableEq κ] (l : List (κ × α)) : List κ :=
  l.map (·.1)

theorem amem_iff_mem_akeys {κ α : Type} [DecidableEq κ] (l : List (κ × α)) (k : κ) :
    amem l k = true ↔ k ∈ akeys l := by
  induction l with
  | nil => simp [amem, aget, akeys]
  | cons p t ih =>
    by_cases h : p.1 = k
    · simp [amem, aget, akeys, List.find?, h]
    · simp only [amem, aget, akeys, List.find?, decide_eq_false h] at ih ⊢
      simp [Ne.symm h, ih]

theorem aget_mapUpd_self {κ α : Type} [DecidableEq κ] (l : List (κ × α)) (k : κ) (v : α) :
    aget (l.map (fun p => if p.1 = k then (k, v) else p)) k = (aget l k).map (fun _ => v) := by
  induction l with
  | nil => simp [aget]
  | cons p t ih =>
    by_cases hp : p.1 = k
    · simp [aget, List.find?, hp]
    · simpa [aget, List.find?, hp] using ih

theorem aget_mapUpd_ne {κ α : Type} [DecidableEq κ] (l : List (κ × α)) (k k' : κ) (v : α)
    (h : k' ≠ k) :
    aget (l.map (fun p => if p.1 = k then (k, v) else p)) k' = aget l k' := by
  induction l with
  | nil => simp [aget]
  | cons p t ih =>
    by_cases hp : p.1 = k
    · have hpk' : ¬p.1 = k' := by rw [hp]; exact Ne.symm h
      simpa [aget, List.find?, hp, Ne.symm h, hpk'] using ih
    · by_cases hp' : p.1 = k'
      · simp only [List.map_cons, if_neg hp]
        simp [aget, List.find?, hp']
      · simpa [aget, List.find?, hp, hp'] using ih

theorem aget_append_single_ne {κ α : Type} [DecidableEq κ] (l : List (κ × α)) (k k' : κ)
    (v : α) (h : k' ≠ k) : aget (l ++ [(k, v)]) k' = aget l k' := by
  induction l with
  | nil => simp [aget, List.find?, Ne.symm h]
  | cons p t ih =>
    by_cases hp : p.1 = k'
    · simp [aget, List.find?, hp]
    · simpa [aget, List.find?, hp] using ih

theorem aget_append_single_self {κ α : Type} [DecidableEq κ] (l : List (κ × α)) (k : κ)
    (v : α) (h : aget l k = none) : aget (l ++ [(k, v)]) k = some v := by
  induction l with
  | nil => simp [aget, List.find?]
  | cons p t ih =>
    by_cases hp : p.1 = k
    · simp [aget, List.find?, hp] at h
    · simp only [aget, List.find?, decide_eq_false hp] at h ⊢
      exact ih h

theorem isSome_find_iff_aget {κ α : Type} [DecidableEq κ] (l : List (κ × α)) (k : κ) :
    (l.find? (fun p => decide (p.1 = k))).isSome = (aget l k).isSome := by
  simp [aget]

theorem aget_aset_self {κ α : Type} [DecidableEq κ] (l : List (κ × α)) (k : κ) (v : α) :
    aget (aset l k v) k = some v := by
  unfold aset
  by_cases hmem : (l.find? (fun p => decide (p.1 = k))).isSome
  · rw [if_pos hmem, aget_mapUpd_self]
    rw [isSome_find_iff_aget] at hmem
    obtain ⟨w, hw⟩ := Option.isSome_iff_exists.mp hmem
    simp [hw]
  · rw [if_neg hmem]
    rw [isSome_find_iff_aget] at hmem
    exact aget_append_single_self l k v (Option.not_isSome_iff_eq_none.mp hmem)

theorem aget_aset_ne {κ α : Type} [DecidableEq κ] (l : List (κ × α)) (k k' : κ) (v : α)
    (h : k' ≠ k) : aget (aset l k v) k' = aget l k' := by
  unfold aset
  by_cases hmem : (l.find? (fun p => decide (p.1 = k))).isSome
  · rw [if_pos hmem]
    exact aget_mapUpd_ne l k k' v h
  · rw [if_neg hmem]
    exact aget_append_single_ne l k k' v h

theorem akeys_aset_of_mem {κ α : Type} [DecidableEq κ] (l : List (κ × α)) (k : κ) (v : α)
    (h : k ∈ akeys l) : akeys (aset l k v) = akeys l := by
  have hfind : (l.find? (fun p => decide (p.1 = k))).isSome := by
    rw [List.find?_isSome]
    simp only [akeys, List.mem_map] at h
    obtain ⟨p, hp, hpk⟩ := h
    exact ⟨p, hp, by simp [hpk]⟩
  simp only [aset, hfind, if_true, akeys, List.map_map]
  apply List.map_congr_left
  intro p _
  by_cases hp : p.1 = k <;> simp [hp]

theorem akeys_aset_of_not_mem {κ α : Type} [DecidableEq κ] (l : List (κ × α)) (k : κ) (v : α)
    (h : k ∉ akeys l) : akeys (aset l k v) = akeys l ++ [k] := by
  have hfind : ¬(l.find? (fun p => decide (p.1 = k))).isSome := by
    rw [List.find?_isSome]
    rintro ⟨p, hp, hpk⟩
    exact h (by simp only [akeys, List.mem_map]; exact ⟨p, hp, by simpa using hpk⟩)
  simp [aset, hfind, akeys]

theorem aget_append_left {κ α : Type} [DecidableEq κ] (l l' : List (κ × α)) (k : κ)
    (h : (aget l k).isSome) : aget (l ++ l') k = aget l k := by
  induction l with
  | nil => simp [aget] at h
  | cons p t ih =>
    by_cases hp : p.1 = k
    · simp [aget, List.find?, hp]
    · simp only [aget, List.find?, decide_eq_false hp] at h ⊢
      exact ih h

/-! ### Decimal rendering of nonnegative integers (Python `str(n)` / `f"{n:03d}"`) -/

/-- The ASCII digit character for `d` (`0 ≤ d ≤ 9`). -/
def digitChar (d : Nat) : Char := Char.ofNat (48 + d)

/-- Fuel-driven accumulator loop producing the decimal digits of `n`
(most significant first) in front of `acc`. -/
def decChars : Nat → Nat → List Char → List Char
  | 0, n, acc => digitChar (n % 10) :: acc
  | f + 1, n, acc => if n < 10 then digitChar n :: acc else decChars f (n / 10) (digitChar (n % 10) :: acc)

/-- The decimal digit characters of `n`, as Python's `str(n)` renders them. -/
def natToDec (n : Nat) : List Char := decChars n n []

/-- Python's `f"{n:03d}"`: decimal digits of `n` left-padded with zeros to
width at least 3. -/
def pad3 (n : Nat) : List Char :=
  List.replicate (3 - (natToDec n).length) '0' ++ natToDec n

/-- Reading a digit-character list back as a number. -/
def decValueFrom (a : Nat) (cs : List Char) : Nat :=
  cs.foldl (fun acc c => 10 * acc + (c.toNat - 48)) a

theorem digitChar_toNat (d : Nat) (h : d < 10) : (digitChar d).toNat = 48 + d := by
  interval_cases d <;> decide

theorem digitChar_ne_underscore (d : Nat) (h : d < 10) : digitChar d ≠ '_' := by
  interval_cases d <;> decide

theorem decValueFrom_decChars (f : Nat) : ∀ n acc, n ≤ f →
    decValueFrom 0 (decChars f n acc) = decValueFrom n acc := by
  induction f with
  | zero =>
    intro n acc hn
    have h0 : n = 0 := Nat.le_zero.mp hn
    subst h0
    simp [decChars, decValueFrom, digitChar_toNat 0 (by norm_num)]
  | succ f ih =>
    intro n acc hn
    by_cases h : n < 10
    · simp [decChars, h, decValueFrom, digitChar_toNat n h]
    · have hrec : n / 10 ≤ f := by
        have h2 : n / 10 < n := Nat.div_lt_self (by omega) (by norm_num)
        omega
      have := ih (n / 10) (digitChar (n % 10) :: acc) hrec
      simp only [decChars, h, if_false]
      rw [this]
      have hd : (n % 10) < 10 := Nat.mod_lt _ (by norm_num)
      simp [decValueFrom, digitChar_toNat _ hd]
      congr 1
      omega

theorem decValueFrom_natToDec (n : Nat) : decValueFrom 0 (natToDec n) = n := by
  simpa [decValueFrom] using decValueFrom_decChars n n [] (Nat.le_refl n)

theorem natToDec_injective : Function.Injective natToDec := by
  intro a b h
  have := decValueFrom_natToDec a
  rw [h, decValueFrom_natToDec] at this
  omega

theorem decValueFrom_replicate_zero (k : Nat) (cs : List Char) :
    decValueFrom 0 (List.replicate k '0' ++ cs) = decValueFrom 0 cs := by
  induction k with
  | zero => simp
  | succ k ih => simpa [List.replicate_succ, decValueFrom] using ih

theorem decValueFrom_pad3 (n : Nat) : decValueFrom 0 (pad3 n) = n := by
  rw [pad3, decValueFrom_replicate_zero, decValueFrom_natToDec]

theorem pad3_injective : Function.Injective pad3 := by
  intro a b h
  have := decValueFrom_pad3 a
  rw [h, decValueFrom_pad3] at this
  omega

theorem underscore_not_mem_decChars (f : Nat) : ∀ n acc, '_' ∉ acc →
    '_' ∉ decChars f n acc := by
  induction f with
  | zero =>
    intro n acc hacc
    simp only [decChars, List.mem_cons]
    push_neg
    exact ⟨(digitChar_ne_underscore _ (Nat.mod_lt _ (by norm_num))).symm, hacc⟩
  | succ f ih =>
    intro n acc hacc
    by_cases h : n < 10
    · simp only [decChars, h, if_true, List.mem_cons]
      push_neg
      exact ⟨(digitChar_ne_underscore _ h).symm, hacc⟩
    · simp only [decChars, h, if_false]
      apply ih
      simp only [List.mem_cons]
      push_neg
      exact ⟨(digitChar_ne_underscore _ (Nat.mod_lt _ (by norm_num))).symm, hacc⟩

theorem underscore_not_mem_natToDec (n : Nat) : '_' ∉ natToDec n :=
  underscore_not_mem_decChars n n [] (by simp)

/-- Splitting a character list at a separator that occurs in neither prefix. -/
theorem append_sep_inj {xs xs' ys ys' : List Char}
    (h : xs ++ '_' :: ys = xs' ++ '_' :: ys')
    (hx : '_' ∉ xs) (hx' : '_' ∉ xs') : xs = xs' ∧ ys = ys' := by
  induction xs generalizing xs' with
  | nil =>
    cases xs' with
    | nil => simpa using h
    | cons a t =>
      simp only [List.nil_append, List.cons_append, List.cons.injEq] at h
      exact absurd (by simp [← h.1]) hx'
  | cons a t ih =>
    cases xs' with
    | nil =>
      simp only [List.cons_append, List.nil_append, List.cons.injEq] at h
      exact absurd (by simp [h.1]) hx
    | cons a' t' =>
      simp only [List.cons_append, List.cons.injEq] at h
      have ht : t = t' ∧ ys = ys' :=
        ih (by simpa using h.2) (fun hm => hx (List.mem_cons_of_mem _ hm))
          (fun hm => hx' (List.mem_cons_of_mem _ hm))
      exact ⟨by simp [h.1, ht.1], ht.2⟩

/-! ### `UnitTracker` (src_new/extraction/state_extractor.py, lines 248-374)

`unit_registry : tag -> (unit_type, id_num)`, `unit_counters : unit_type -> max_id`,
`previous_frame_tags`. -/

structure UnitTracker where
  unitRegistry : List (Nat × Nat × Nat)
  unitCounters : List (Nat × Nat)
  previousFrameTags : List Nat
deriving DecidableEq

def UnitTracker.init : UnitTracker := ⟨[], [], []⟩

/-- `f"unit_{unit_type}_{id_num:03d}"`. -/
def mkUnitId (unitType idNum : Nat) : String :=
  String.mk ("unit_".data ++ natToDec unitType ++ '_' :: pad3 idNum)

/-- `UnitTracker.assign_unit_id` (lines 329-353): return the registered id if the
tag is known; otherwise mint `(unit_type, counter)`, bump the per-type counter
and register the tag. Returns the updated tracker and the id string. -/
def assignUnitId (s : UnitTracker) (tag unitType : Nat) : UnitTracker × String :=
  match aget s.unitRegistry tag with
  | some (ty0, n) => (s, mkUnitId ty0 n)
  | none =>
    let counters0 := if (aget s.unitCounters unitType).isSome then s.unitCounters
      else aset s.unitCounters unitType 1
    let idNum := (aget counters0 unitType).getD 1
    let counters1 := aset counters0 unitType (idNum + 1)
    ({ s with unitRegistry := aset s.unitRegistry tag (unitType, idNum),
              unitCounters := counters1 },
     mkUnitId unitType idNum)

/-- `UnitTracker.detect_state` (lines 355-368). -/
def detectState (s : UnitTracker) (tag : Nat) : String :=
  if tag ∈ s.previousFrameTags then "existing" else "built"

/-- A raw unit as consumed by `UnitTracker.process_units`: tag, unit type and
position. -/
structure RawUnitT where
  tag : Nat
  unitType : Nat
  x : Rat
  y : Rat
  z : Rat
deriving DecidableEq

/-- The tracked-unit dict built in the `process_units` main loop. -/
def mkTrackedUnit (u : RawUnitT) (state : String) (gameLoop : Int) : List (String × Value) :=
  [("tag", Value.vInt u.tag), ("unit_type", Value.vInt u.unitType),
   ("x", Value.vRat u.x), ("y", Value.vRat u.y), ("z", Value.vRat u.z),
   ("state", Value.vStr state), ("game_loop", Value.vInt gameLoop)]

/-- The killed-unit dict built in the `process_units` dead-tag loop. -/
def mkKilledUnit (tag : Nat) (gameLoop : Int) : List (String × Value) :=
  [("tag", Value.vInt tag), ("state", Value.vStr "killed"),
   ("game_loop", Value.vInt gameLoop)]

/-- One iteration of the `process_units` main loop (lines 291-310): record the
tag, assign or retrieve the unit id, detect the state, store the tracked dict. -/
def processUnitsStep (gameLoop : Int)
    (acc : UnitTracker × List Nat × List (String × List (String × Value)))
    (u : RawUnitT) : UnitTracker × List Nat × List (String × List (String × Value)) :=
  let currentTags := acc.2.1 ++ [u.tag]
  let r := assignUnitId acc.1 u.tag u.unitType
  let state := detectState r.1 u.tag
  (r.1, currentTags, aset acc.2.2 r.2 (mkTrackedUnit u state gameLoop))

/-- The `process_units` dead-tag loop (lines 313-322): emit a killed entry for
every previously-active tag absent from the current frame. -/
def processUnitsDead (s1 : UnitTracker) (gameLoop : Int) (deadTags : List Nat)
    (tracked : List (String × List (String × Value))) :
    List (String × List (String × Value)) :=
  deadTags.foldl (fun tr deadTag =>
    match aget s1.unitRegistry deadTag with
    | some (ty, n) => aset tr (mkUnitId ty n) (mkKilledUnit deadTag gameLoop)
    | none => tr) tracked

/-- `UnitTracker.process_units` (lines 264-327): assign ids and states for the
frame's units, emit killed entries for tags that vanished since the previous
frame, then commit the frame's tag set. -/
def processUnits (s : UnitTracker) (rawUnits : List RawUnitT) (gameLoop : Int) :
    UnitTracker × List (String × List (String × Value)) :=
  let r := rawUnits.foldl (processUnitsStep gameLoop) (s, [], [])
  let deadTags := r.1.previousFrameTags.filter (fun t => decide (t ∉ r.2.1))
  let tracked1 := processUnitsDead r.1 gameLoop deadTags r.2.2
  ({ r.1 with previousFrameTags := r.2.1 }, tracked1)

/-- A whole run of the tracker: one `process_units` call per frame. -/
def runTracker (frames : List (List RawUnitT × Int)) : UnitTracker :=
  frames.foldl (fun s f => (processUnits s f.1 f.2).1) UnitTracker.init

theorem mkUnitId_injective2 {t1 n1 t2 n2 : Nat} (h : mkUnitId t1 n1 = mkUnitId t2 n2) :
    t1 = t2 ∧ n1 = n2 := by
  have hl : "unit_".data ++ natToDec t1 ++ '_' :: pad3 n1 =
      "unit_".data ++ natToDec t2 ++ '_' :: pad3 n2 := by
    have := congrArg String.data h
    simpa [mkUnitId] using this
  have h2 : natToDec t1 ++ '_' :: pad3 n1 = natToDec t2 ++ '_' :: pad3 n2 := by
    have := hl
    rw [List.append_assoc, List.append_assoc] at this
    exact List.append_cancel_left this
  have h3 := append_sep_inj h2 (underscore_not_mem_natToDec t1) (underscore_not_mem_natToDec t2)
  exact ⟨natToDec_injective h3.1, pad3_injective h3.2⟩

/-- The next id the tracker would hand out for `ty` (`unit_counters` with the
lazy initialisation to 1). -/
def counterFor (s : UnitTracker) (ty : Nat) : Nat := (aget s.unitCounters ty).getD 1

/-- Registry soundness: every registered id number is below the per-type
counter, and distinct tags of the same type carry distinct id numbers. -/
def TrackerInv (s : UnitTracker) : Prop :=
  (∀ t ty n, aget s.unitRegistry t = some (ty, n) → n < counterFor s ty) ∧
  (∀ t t' ty n n', aget s.unitRegistry t = some (ty, n) →
    aget s.unitRegistry t' = some (ty, n') → t ≠ t' → n ≠ n')

theorem trackerInv_init : TrackerInv UnitTracker.init := by
  constructor
  · intro t ty n h
    simp [UnitTracker.init, aget] at h
  · intro t t' ty n n' h
    simp [UnitTracker.init, aget] at h

theorem assignUnitId_of_registered {s : UnitTracker} {tag : Nat} (ty : Nat)
    {e : Nat × Nat} (h : aget s.unitRegistry tag = some e) :
    assignUnitId s tag ty = (s, mkUnitId e.1 e.2) := by
  obtain ⟨ty0, n⟩ := e
  simp [assignUnitId, h]

theorem assignUnitId_none_registry {s : UnitTracker} {tag : Nat} (ty : Nat)
    (h : aget s.unitRegistry tag = none) :
    (assignUnitId s tag ty).1.unitRegistry =
      aset s.unitRegistry tag (ty, counterFor s ty) := by
  by_cases hc : (aget s.unitCounters ty).isSome
  · obtain ⟨c, hcv⟩ := Option.isSome_iff_exists.mp hc
    simp [assignUnitId, h, hc, counterFor, hcv]
  · have hcn : aget s.unitCounters ty = none := Option.not_isSome_iff_eq_none.mp hc
    simp [assignUnitId, h, hc, counterFor, hcn, aget_aset_self]

theorem assignUnitId_none_counterFor_self {s : UnitTracker} {tag : Nat} (ty : Nat)
    (h : aget s.unitRegistry tag = none) :
    counterFor (assignUnitId s tag ty).1 ty = counterFor s ty + 1 := by
  by_cases hc : (aget s.unitCounters ty).isSome
  · obtain ⟨c, hcv⟩ := Option.isSome_iff_exists.mp hc
    simp [assignUnitId, h, hc, counterFor, hcv, aget_aset_self]
  · have hcn : aget s.unitCounters ty = none := Option.not_isSome_iff_eq_none.mp hc
    simp [assignUnitId, h, hc, counterFor, hcn, aget_aset_self]

theorem assignUnitId_none_counterFor_ne {s : UnitTracker} {tag : Nat} (ty ty' : Nat)
    (h : aget s.unitRegistry tag = none) (hne : ty' ≠ ty) :
    counterFor (assignUnitId s tag ty).1 ty' = counterFor s ty' := by
  by_cases hc : (aget s.unitCounters ty).isSome
  · obtain ⟨c, hcv⟩ := Option.isSome_iff_exists.mp hc
    simp [assignUnitId, h, hc, counterFor, hcv, aget_aset_ne _ _ _ _ hne]
  · have hcn : aget s.unitCounters ty = none := Option.not_isSome_iff_eq_none.mp hc
    simp [assignUnitId, h, hc, counterFor, hcn, aget_aset_ne _ _ _ _ hne]

theorem assignUnitId_preserves_registered {s : UnitTracker} {t : Nat} {e : Nat × Nat}
    (tag ty : Nat) (h : aget s.unitRegistry t = some e) :
    aget (assignUnitId s tag ty).1.unitRegistry t = some e := by
  by_cases hreg : (aget s.unitRegistry tag).isSome
  · obtain ⟨e0, he0⟩ := Option.isSome_iff_exists.mp hreg
    rw [assignUnitId_of_registered ty he0]
    exact h
  · have hn : aget s.unitRegistry tag = none := Option.not_isSome_iff_eq_none.mp hreg
    rw [assignUnitId_none_registry ty hn]
    have htne : t ≠ tag := by
      intro hc
      rw [hc, hn] at h
      exact Option.noConfusion h
    rw [aget_aset_ne _ _ _ _ htne]
    exact h

theorem assignUnitId_preserves_inv {s : UnitTracker} (tag ty : Nat)
    (hinv : TrackerInv s) : TrackerInv (assignUnitId s tag ty).1 := by
  by_cases hreg : (aget s.unitRegistry tag).isSome
  · obtain ⟨e0, he0⟩ := Option.isSome_iff_exists.mp hreg
    rw [assignUnitId_of_registered ty he0]
    exact hinv
  · have hn : aget s.unitRegistry tag = none := Option.not_isSome_iff_eq_none.mp hreg
    constructor
    · intro t ty' n h
      rw [assignUnitId_none_registry ty hn] at h
      by_cases ht : t = tag
      · rw [ht, aget_aset_self] at h
        obtain ⟨hty, hnn⟩ := Prod.mk.injEq .. ▸ (Option.some.injEq .. ▸ h :
          (ty, counterFor s ty) = (ty', n))
        rw [← hty, ← hnn, assignUnitId_none_counterFor_self ty hn]
        omega
      · rw [aget_aset_ne _ _ _ _ ht] at h
        have hlt := hinv.1 t ty' n h
        by_cases hty : ty' = ty
        · rw [hty] at hlt ⊢
          rw [assignUnitId_none_counterFor_self ty hn]
          omega
        · rw [assignUnitId_none_counterFor_ne ty ty' hn hty]
          exact hlt
    · intro t t' ty' n n' h h' htne
      rw [assignUnitId_none_registry ty hn] at h h'
      by_cases ht : t = tag
      · have ht' : t' ≠ tag := fun hc => htne (ht.trans hc.symm)
        rw [ht, aget_aset_self] at h
        rw [aget_aset_ne _ _ _ _ ht'] at h'
        obtain ⟨hty, hnn⟩ := Prod.mk.injEq .. ▸ (Option.some.injEq .. ▸ h :
          (ty, counterFor s ty) = (ty', n))
        have hlt := hinv.1 t' ty' n' h'
        rw [← hty] at hlt
        omega
      · rw [aget_aset_ne _ _ _ _ ht] at h
        by_cases ht' : t' = tag
        · rw [ht', aget_aset_self] at h'
          obtain ⟨hty, hnn⟩ := Prod.mk.injEq .. ▸ (Option.some.injEq .. ▸ h' :
            (ty, counterFor s ty) = (ty', n'))
          have hlt := hinv.1 t ty' n h
          rw [← hty] at hlt
          omega
        · rw [aget_aset_ne _ _ _ _ ht'] at h'
          exact hinv.2 t t' ty' n n' h h' htne

/-- The tracker component of one main-loop step of `process_units`. -/
def assignStep (s : UnitTracker) (u : RawUnitT) : UnitTracker :=
  (assignUnitId s u.tag u.unitType).1

theorem processUnits_fst_registry (s : UnitTracker) (rawUnits : List RawUnitT)
    (gameLoop : Int) :
    (processUnits s rawUnits gameLoop).1.unitRegistry =
      (rawUnits.foldl assignStep s).unitRegistry ∧
    (processUnits s rawUnits gameLoop).1.unitCounters =
      (rawUnits.foldl assignStep s).unitCounters := by
  have h : ∀ (l : List RawUnitT) (acc : UnitTracker × List Nat ×
      List (String × List (String × Value))),
      (l.foldl (processUnitsStep gameLoop) acc).1 = l.foldl assignStep acc.1 := by
    intro l
    induction l with
    | nil => intro acc; rfl
    | cons u t ih =>
      intro acc
      simp only [List.foldl_cons]
      rw [ih]
      rfl
  constructor
  · simp [processUnits, h rawUnits (s, [], [])]
  · simp [processUnits, h rawUnits (s, [], [])]

theorem foldl_assignStep_preserves_registered {t : Nat} {e : Nat × Nat} :
    ∀ (l : List RawUnitT) (s : UnitTracker), aget s.unitRegistry t = some e →
    aget (l.foldl assignStep s).unitRegistry t = some e := by
  intro l
  induction l with
  | nil => intro s h; exact h
  | cons u tl ih =>
    intro s h
    exact ih _ (assignUnitId_preserves_registered u.tag u.unitType h)

theorem foldl_assignStep_preserves_inv :
    ∀ (l : List RawUnitT) (s : UnitTracker), TrackerInv s →
    TrackerInv (l.foldl assignStep s) := by
  intro l
  induction l with
  | nil => intro s h; exact h
  | cons u tl ih =>
    intro s h
    exact ih _ (assignUnitId_preserves_inv u.tag u.unitType h)

theorem processUnits_preserves_registered {s : UnitTracker} {t : Nat} {e : Nat × Nat}
    (rawUnits : List RawUnitT) (gameLoop : Int)
    (h : aget s.unitRegistry t = some e) :
    aget (processUnits s rawUnits gameLoop).1.unitRegistry t = some e := by
  rw [(processUnits_fst_registry s rawUnits gameLoop).1]
  exact foldl_assignStep_preserves_registered rawUnits s h

theorem processUnits_preserves_inv {s : UnitTracker} (rawUnits : List RawUnitT)
    (gameLoop : Int) (h : TrackerInv s) :
    TrackerInv (processUnits s rawUnits gameLoop).1 := by
  have hr := (processUnits_fst_registry s rawUnits gameLoop).1
  have hc := (processUnits_fst_registry s rawUnits gameLoop).2
  have hinv := foldl_assignStep_preserves_inv rawUnits s h
  constructor
  · intro t ty n hget
    rw [hr] at hget
    have := hinv.1 t ty n hget
    simpa [counterFor, hc] using this
  · intro t t' ty n n' hget hget' htne
    rw [hr] at hget hget'
    exact hinv.2 t t' ty n n' hget hget' htne

theorem runTracker_inv (frames : List (List RawUnitT × Int)) :
    TrackerInv (runTracker frames) := by
  unfold runTracker
  induction frames using List.reverseRecOn with
  | nil => exact trackerInv_init
  | append_singleton l f ih =>
    rw [List.foldl_append]
    exact processUnits_preserves_inv f.1 f.2 ih

theorem runTracker_preserves_registered {frames : List (List RawUnitT × Int)}
    {t : Nat} {e : Nat × Nat} (more : List (List RawUnitT × Int))
    (h : aget (runTracker frames).unitRegistry t = some e) :
    aget (runTracker (frames ++ more)).unitRegistry t = some e := by
  unfold runTracker at *
  rw [List.foldl_append]
  induction more using List.reverseRecOn with
  | nil => exact h
  | append_singleton l f ih =>
    rw [List.foldl_append]
    exact processUnits_preserves_registered f.1 f.2 ih

/-- C1, counterexample. Tag 5 (type 10) is assigned `unit_10_001` at frame 0,
is destroyed at frame 100 (absent, reported killed), and at frame 200 the same
tag value is observed again for an unrelated object of a different type (20).
The claim requires a fresh StableId after reuse; the tracker instead keys the
frame-200 object under the same id `unit_10_001`, because `unit_registry` is
never purged on destruction. -/
theorem c1_tag_reuse_counterexample :
    (processUnits (runTracker [([⟨5, 10, 0, 0, 0⟩], 0), ([], 100)])
        [⟨5, 20, 1, 1, 1⟩] 200).2.map Prod.fst = ["unit_10_001"] ∧
    (processUnits UnitTracker.init [⟨5, 10, 0, 0, 0⟩] 0).2.map Prod.fst = ["unit_10_001"] ∧
    (processUnits (runTracker [([⟨5, 10, 0, 0, 0⟩], 0)]) [] 100).2 =
      [("unit_10_001", mkKilledUnit 5 100)] := by
  decide

/-- C1, amended. In `UnitTracker` a tag is never retired: once
`assign_unit_id` has registered `tag ↦ (type, n)`, every later call with that
tag — after any further frames, including frames in which the tag's object was
destroyed and the tag reused, and regardless of the type passed — returns the
originally minted StableId unchanged and leaves the tracker state untouched;
no fresh StableId is minted on reuse. -/
theorem c1_assign_id_stable_forever
    (frames more : List (List RawUnitT × Int)) (tag ty n ty' : Nat)
    (h : aget (runTracker frames).unitRegistry tag = some (ty, n)) :
    assignUnitId (runTracker (frames ++ more)) tag ty' =
      (runTracker (frames ++ more), mkUnitId ty n) :=
  assignUnitId_of_registered ty' (runTracker_preserves_registered more h)

/-- Witness for `c1_assign_id_stable_forever` at a concrete run. -/
theorem c1_assign_id_stable_forever_witness :
    aget (runTracker [([⟨5, 10, 0, 0, 0⟩], 0)]).unitRegistry 5 = some (10, 1) ∧
    assignUnitId (runTracker ([([⟨5, 10, 0, 0, 0⟩], 0)] ++ [([], 100), ([⟨5, 20, 1, 1, 1⟩], 200)]))
        5 20 =
      (runTracker ([([⟨5, 10, 0, 0, 0⟩], 0)] ++ [([], 100), ([⟨5, 20, 1, 1, 1⟩], 200)]),
        mkUnitId 10 1) :=
  ⟨by decide,
   c1_assign_id_stable_forever [([⟨5, 10, 0, 0, 0⟩], 0)] [([], 100), ([⟨5, 20, 1, 1, 1⟩], 200)]
     5 10 1 20 (by decide)⟩

/-- C10: within one `UnitTracker` instance, readable-id assignment is injective
on registered tags. After any run, two distinct tags present in
`unit_registry` carry registry entries whose rendered ids
`f"unit_{type}_{num:03d}"` differ, because the per-type counter strictly
increases on each fresh assignment and the id embeds the type and the counter
value. -/
theorem c10_registered_ids_injective
    (frames : List (List RawUnitT × Int)) (t1 t2 : Nat) (e1 e2 : Nat × Nat)
    (h1 : aget (runTracker frames).unitRegistry t1 = some e1)
    (h2 : aget (runTracker frames).unitRegistry t2 = some e2)
    (hne : t1 ≠ t2) : mkUnitId e1.1 e1.2 ≠ mkUnitId e2.1 e2.2 := by
  intro heq
  obtain ⟨hty, hn⟩ := mkUnitId_injective2 heq
  have hinv := runTracker_inv frames
  obtain ⟨ty1, n1⟩ := e1
  obtain ⟨ty2, n2⟩ := e2
  simp only at hty hn
  rw [← hty, ← hn] at h2
  exact hinv.2 t1 t2 ty1 n1 n1 h1 h2 hne rfl

/-- Witness for `c10_registered_ids_injective` at a concrete run. -/
theorem c10_registered_ids_injective_witness :
    aget (runTracker [([⟨5, 10, 0, 0, 0⟩, ⟨7, 10, 2, 2, 2⟩], 0)]).unitRegistry 5 =
      some (10, 1) ∧
    aget (runTracker [([⟨5, 10, 0, 0, 0⟩, ⟨7, 10, 2, 2, 2⟩], 0)]).unitRegistry 7 =
      some (10, 2) ∧
    mkUnitId 10 1 ≠ mkUnitId 10 2 :=
  ⟨by decide, by decide,
   c10_registered_ids_injective [([⟨5, 10, 0, 0, 0⟩, ⟨7, 10, 2, 2, 2⟩], 0)] 5 7 (10, 1) (10, 2)
     (by decide) (by decide) (by decide)⟩

/-! ### `SchemaManager` (src_new/extraction/schema_manager.py) -/

/-- Python `str.startswith`, at the character-list level. -/
def pyStartsWith (s p : String) : Bool := p.data.isPrefixOf s.data

/-- Python `str.lower` for ASCII letters, at the character level. -/
def lowerChar (c : Char) : Char :=
  if 65 ≤ c.toNat ∧ c.toNat ≤ 90 then Char.ofNat (c.toNat + 32) else c

/-- Python `str.lower` (ASCII). -/
def pyLower (s : String) : String := String.mk (s.data.map lowerChar)

/-- One entry of `column_docs`: description, declared type string and the
documented missing-value marker. -/
structure DocEntry where
  description : String
  dtype : String
  missingValue : String
deriving DecidableEq

/-- `SchemaManager` state: ordered column list, per-column documentation and
per-column dtype strings. -/
structure Schema where
  columns : List String
  columnDocs : List (String × DocEntry)
  dtypes : List (String × String)
deriving DecidableEq

/-- The registration pattern shared by all `add_*_columns` methods: if the
name is not yet in `columns`, append it and record its dtype and docs. -/
def addColumn (s : Schema) (name dtype desc missing : String) : Schema :=
  if name ∈ s.columns then s
  else { columns := s.columns ++ [name],
         dtypes := aset s.dtypes name dtype,
         columnDocs := aset s.columnDocs name ⟨desc, dtype, missing⟩ }

def Schema.empty : Schema := ⟨[], [], []⟩

/-- `SchemaManager._add_base_columns` (lines 42-57). -/
def addBaseColumns (s : Schema) : Schema :=
  let s := addColumn s "game_loop" "int64" "Current game loop (frame) number" "N/A"
  addColumn s "timestamp_seconds" "float64"
    "Time in seconds since game start (game_loop / 22.4)" "N/A"

/-- A fresh `SchemaManager` (`__init__`): base columns only. -/
def Schema.init : Schema := addBaseColumns Schema.empty

/-- The documented missing-value marker: `'NaN' if dtype.startswith('float')
or dtype.startswith('int') else 'null'` (lines 181, 218). -/
def sentinelDoc (dtype : String) : String :=
  if pyStartsWith dtype "float" || pyStartsWith dtype "int" then "NaN" else "null"

/-- The per-unit column suffixes with dtypes and descriptions
(`add_unit_columns`, lines 159-170). -/
def unitColumnSpecs : List (String × String × String) :=
  [("x", "float64", "X-coordinate"), ("y", "float64", "Y-coordinate"),
   ("z", "float64", "Z-coordinate (height)"),
   ("health", "float64", "Current health"), ("health_max", "float64", "Maximum health"),
   ("shields", "float64", "Current shields"), ("shields_max", "float64", "Maximum shields"),
   ("energy", "float64", "Current energy"), ("energy_max", "float64", "Maximum energy"),
   ("state", "string", "Unit state (built/existing/killed)")]

/-- `SchemaManager.add_unit_columns` (lines 144-182). -/
def addUnitColumns (s : Schema) (player uid utName : String) : Schema :=
  unitColumnSpecs.foldl (fun s spec =>
    addColumn s (player ++ "_" ++ uid ++ "_" ++ spec.1) spec.2.1
      (spec.2.2 ++ " for " ++ player ++ " " ++ utName ++ " " ++ uid)
      (sentinelDoc spec.2.1)) s

/-- The per-building column suffixes with dtypes and descriptions
(`add_building_columns`, lines 198-207). -/
def buildingColumnSpecs : List (String × String × String) :=
  [("x", "float64", "X-coordinate"), ("y", "float64", "Y-coordinate"),
   ("z", "float64", "Z-coordinate"),
   ("status", "string", "Building status (started/building/completed/destroyed)"),
   ("progress", "int64", "Construction progress (0-100)"),
   ("started_loop", "int64", "Game loop when construction started"),
   ("completed_loop", "int64", "Game loop when construction completed"),
   ("destroyed_loop", "int64", "Game loop when building destroyed")]

/-- `SchemaManager.add_building_columns` (lines 184-219). -/
def addBuildingColumns (s : Schema) (player bid btName : String) : Schema :=
  buildingColumnSpecs.foldl (fun s spec =>
    addColumn s (player ++ "_" ++ bid ++ "_" ++ spec.1) spec.2.1
      (spec.2.2 ++ " for " ++ player ++ " " ++ btName ++ " " ++ bid)
      (sentinelDoc spec.2.1)) s

/-- `SchemaManager.add_unit_count_columns` (lines 369-386): one `int64` count
column per player, documented with missing value `'0'`. -/
def addUnitCountColumns (s : Schema) (unitType : String) : Schema :=
  let s := addColumn s ("p1_" ++ pyLower unitType ++ "_count") "int64"
    ("Count of " ++ unitType ++ " units for player 1") "0"
  addColumn s ("p2_" ++ pyLower unitType ++ "_count") "int64"
    ("Count of " ++ unitType ++ " units for player 2") "0"

/-- `SchemaManager.get_dtype` (lines 340-350). -/
def getDtype (s : Schema) (columnName : String) : String :=
  (aget s.dtypes columnName).getD "object"

/-- `SchemaManager.get_missing_value` (lines 352-367): NaN for float/int
dtypes, None otherwise. -/
def getMissingValue (s : Schema) (columnName : String) : Value :=
  let dtype := getDtype s columnName
  if pyStartsWith dtype "float" || pyStartsWith dtype "int" then Value.vNan else Value.vNull

/-- C7. The claim says count columns get sentinel zero. In the code,
`add_unit_count_columns` registers `p1_marine_count` with dtype `int64` and
documents its missing value as `'0'`, but `get_missing_value` hits the
`int` branch and returns NaN, contradicting the schema's own documentation:
the sentinel actually returned for a count column is NaN, not zero. -/
theorem c7_count_column_sentinel :
    getMissingValue (addUnitCountColumns Schema.init "Marine") "p1_marine_count" = Value.vNan ∧
    (aget (addUnitCountColumns Schema.init "Marine").columnDocs "p1_marine_count").map
      (fun d => d.missingValue) = some "0" ∧
    Value.vNan ≠ Value.vInt 0 := by
  decide

/-! ### `WideTableBuilder` (src_new/extraction/wide_table_builder.py) -/

/-- The state handed to `build_row` by `StateExtractor.extract_observation`
(state_extractor.py lines 84-105): per-player unit/building dicts keyed by
readable id, per-player economy and upgrade dicts, and the message list. -/
structure ExtractedState where
  gameLoop : Int
  p1Units : List (String × List (String × Value))
  p2Units : List (String × List (String × Value))
  p1Buildings : List (String × List (String × Value))
  p2Buildings : List (String × List (String × Value))
  p1Economy : List (String × Value)
  p2Economy : List (String × Value)
  p1Upgrades : List (String × Value)
  p2Upgrades : List (String × Value)
  messages : List (List (String × Value))
deriving DecidableEq

/-- Python `d.get(k, default)` restricted to string values. -/
def getStrD (v : Option Value) (d : String) : String :=
  match v with
  | some (Value.vStr s) => s
  | _ => d

/-- The attribute-overlay loop shared by `add_unit_to_row`,
`add_building_to_row` and `add_economy_to_row`: for each attribute suffix,
write `data.get(attr, missing)` into the column `prefixS ++ attr` if that
column exists in the row. -/
def attrFold (schema : Schema) (data : List (String × Value)) (prefixS : String)
    (attrs : List String) (row : List (String × Value)) : List (String × Value) :=
  attrs.foldl (fun r attr =>
    let col := prefixS ++ attr
    if amem r col then aset r col ((aget data attr).getD (getMissingValue schema col)) else r)
    row

/-- `add_unit_to_row` attribute list (lines 140-146). -/
def unitRowAttrs : List String :=
  ["x", "y", "z", "health", "health_max", "shields", "shields_max",
   "energy", "energy_max", "state"]

/-- `add_building_to_row` attribute list (lines 171-175). -/
def buildingRowAttrs : List String :=
  ["x", "y", "z", "status", "progress", "started_loop", "completed_loop", "destroyed_loop"]

/-- `add_economy_to_row` attribute list (lines 196-200). -/
def economyRowAttrs : List String :=
  ["minerals", "vespene", "supply_used", "supply_cap", "workers", "idle_workers"]

/-- `WideTableBuilder.add_unit_to_row` (lines 113-151): a killed unit sets only
its state column; otherwise all unit attributes are overlaid. -/
def addUnitToRow (schema : Schema) (row : List (String × Value)) (player uid : String)
    (data : List (String × Value)) : List (String × Value) :=
  if aget data "state" = some (Value.vStr "killed") then
    let stateCol := player ++ "_" ++ uid ++ "_state"
    if amem row stateCol then aset row stateCol (Value.vStr "killed") else row
  else
    attrFold schema data (player ++ "_" ++ uid ++ "_") unitRowAttrs row

/-- `WideTableBuilder.add_building_to_row` (lines 153-180). -/
def addBuildingToRow (schema : Schema) (row : List (String × Value)) (player bid : String)
    (data : List (String × Value)) : List (String × Value) :=
  attrFold schema data (player ++ "_" ++ bid ++ "_") buildingRowAttrs row

/-- `WideTableBuilder.add_economy_to_row` (lines 182-205). -/
def addEconomyToRow (schema : Schema) (row : List (String × Value)) (player : String)
    (econ : List (String × Value)) : List (String × Value) :=
  attrFold schema econ (player ++ "_") economyRowAttrs row

/-- The upgrade-name-to-column mapping of `add_upgrades_to_row` (lines 222-226). -/
def upgradeMapping (player : String) : List (String × String) :=
  [("attack_level", player ++ "_upgrade_attack_level"),
   ("armor_level", player ++ "_upgrade_armor_level"),
   ("shield_level", player ++ "_upgrade_shield_level")]

/-- `WideTableBuilder.add_upgrades_to_row` (lines 207-230): the default for a
missing upgrade is `0`, not the sentinel. -/
def addUpgradesToRow (row : List (String × Value)) (player : String)
    (upgrades : List (String × Value)) : List (String × Value) :=
  (upgradeMapping player).foldl (fun r m =>
    if amem r m.2 then aset r m.2 ((aget upgrades m.1).getD (Value.vInt 0)) else r) row

/-- `WideTableBuilder.calculate_unit_counts` (lines 251-276): count live units
per `unit_type_name`, skipping killed entries and falsy names. -/
def calculateUnitCounts (units : List (String × List (String × Value))) :
    List (String × Int) :=
  units.foldl (fun counts u =>
    if aget u.2 "state" = some (Value.vStr "killed") then counts
    else
      match aget u.2 "unit_type_name" with
      | some (Value.vStr s) =>
          if s = "" then counts else aset counts s ((aget counts s).getD 0 + 1)
      | _ => counts) []

/-- `WideTableBuilder.add_unit_counts_to_row` (lines 232-249). -/
def addUnitCountsToRow (row : List (String × Value)) (player : String)
    (counts : List (String × Int)) : List (String × Value) :=
  counts.foldl (fun r c =>
    let col := player ++ "_" ++ pyLower c.1 ++ "_count"
    if amem r col then aset r col (Value.vInt c.2) else r) row

/-- `WideTableBuilder._format_messages` (lines 325-347). -/
def formatMessages (messages : List (List (String × Value))) : Value :=
  if messages = [] then Value.vNan
  else
    let texts := messages.map (fun m => getStrD (aget m "message") "")
    match texts with
    | [t] => Value.vStr t
    | _ => Value.vStrList texts

/-- The initialisation loop of `build_row` (lines 58-61): every schema column
set to its sentinel. -/
def initRow (schema : Schema) : List (String × Value) :=
  schema.columns.foldl (fun r c => aset r c (getMissingValue schema c)) []

/-- `WideTableBuilder.build_row` (lines 37-111): initialise every schema
column to its sentinel, then overlay base columns, units, buildings, economy,
upgrades, unit counts and messages, in source order. -/
def buildRow (schema : Schema) (st : ExtractedState) : List (String × Value) :=
  let row := initRow schema
  let row := aset row "game_loop" (Value.vInt st.gameLoop)
  let row := aset row "timestamp_seconds" (Value.vRat ((st.gameLoop : Rat) / 22.4))
  let row := st.p1Units.foldl (fun r u => addUnitToRow schema r "p1" u.1 u.2) row
  let row := st.p2Units.foldl (fun r u => addUnitToRow schema r "p2" u.1 u.2) row
  let row := st.p1Buildings.foldl (fun r b => addBuildingToRow schema r "p1" b.1 b.2) row
  let row := st.p2Buildings.foldl (fun r b => addBuildingToRow schema r "p2" b.1 b.2) row
  let row := addEconomyToRow schema row "p1" st.p1Economy
  let row := addEconomyToRow schema row "p2" st.p2Economy
  let row := addUpgradesToRow row "p1" st.p1Upgrades
  let row := addUpgradesToRow row "p2" st.p2Upgrades
  let row := addUnitCountsToRow row "p1" (calculateUnitCounts st.p1Units)
  let row := addUnitCountsToRow row "p2" (calculateUnitCounts st.p2Units)
  if amem row "Messages" then aset row "Messages" (formatMessages st.messages) else row

/-- `WideTableBuilder.validate_row` (lines 299-323): fail on missing or extra
columns relative to the schema. -/
def validateRow (schema : Schema) (row : List (String × Value)) : Bool :=
  let missingColumns := schema.columns.filter (fun c => decide (c ∉ akeys row))
  let extraColumns := (akeys row).filter (fun c => decide (c ∉ schema.columns))
  if missingColumns ≠ [] then false
  else if extraColumns ≠ [] then false
  else true

theorem amem_aset_ne {κ α : Type} [DecidableEq κ] (l : List (κ × α)) (k k' : κ) (v : α)
    (h : k' ≠ k) : amem (aset l k v) k' = amem l k' := by
  simp [amem, aget_aset_ne _ _ _ _ h]

theorem akeys_guarded_aset (r : List (String × Value)) (c : String) (v : Value) :
    akeys (if amem r c then aset r c v else r) = akeys r := by
  by_cases h : amem r c
  · rw [if_pos h]
    exact akeys_aset_of_mem _ _ _ ((amem_iff_mem_akeys r c).mp h)
  · rw [if_neg h]

theorem akeys_foldl {α : Type} (f : List (String × Value) → α → List (String × Value))
    (h : ∀ r a, akeys (f r a) = akeys r) :
    ∀ (l : List α) (r : List (String × Value)), akeys (l.foldl f r) = akeys r := by
  intro l
  induction l with
  | nil => intro r; rfl
  | cons a t ih =>
    intro r
    rw [List.foldl_cons, ih, h]

theorem akeys_attrFold (schema : Schema) (data : List (String × Value)) (prefixS : String)
    (attrs : List String) (row : List (String × Value)) :
    akeys (attrFold schema data prefixS attrs row) = akeys row := by
  unfold attrFold
  apply akeys_foldl
  intro r a
  exact akeys_guarded_aset r (prefixS ++ a) _

theorem akeys_addUnitToRow (schema : Schema) (row : List (String × Value))
    (player uid : String) (data : List (String × Value)) :
    akeys (addUnitToRow schema row player uid data) = akeys row := by
  unfold addUnitToRow
  by_cases h : aget data "state" = some (Value.vStr "killed")
  · rw [if_pos h]
    exact akeys_guarded_aset row _ _
  · rw [if_neg h]
    exact akeys_attrFold ..

theorem akeys_addBuildingToRow (schema : Schema) (row : List (String × Value))
    (player bid : String) (data : List (String × Value)) :
    akeys (addBuildingToRow schema row player bid data) = akeys row := by
  unfold addBuildingToRow
  exact akeys_attrFold ..

theorem akeys_addEconomyToRow (schema : Schema) (row : List (String × Value))
    (player : String) (econ : List (String × Value)) :
    akeys (addEconomyToRow schema row player econ) = akeys row := by
  unfold addEconomyToRow
  exact akeys_attrFold ..

theorem akeys_addUpgradesToRow (row : List (String × Value)) (player : String)
    (upgrades : List (String × Value)) :
    akeys (addUpgradesToRow row player upgrades) = akeys row := by
  unfold addUpgradesToRow
  apply akeys_foldl
  intro r m
  exact akeys_guarded_aset r m.2 _

theorem akeys_addUnitCountsToRow (row : List (String × Value)) (player : String)
    (counts : List (String × Int)) :
    akeys (addUnitCountsToRow row player counts) = akeys row := by
  unfold addUnitCountsToRow
  apply akeys_foldl
  intro r c
  exact akeys_guarded_aset r (player ++ "_" ++ pyLower c.1 ++ "_count") _

theorem akeys_unitsFold (schema : Schema) (player : String)
    (units : List (String × List (String × Value))) (row : List (String × Value)) :
    akeys (units.foldl (fun r u => addUnitToRow schema r player u.1 u.2) row) = akeys row := by
  apply akeys_foldl
  intro r u
  exact akeys_addUnitToRow schema r player u.1 u.2

theorem akeys_buildingsFold (schema : Schema) (player : String)
    (buildings : List (String × List (String × Value))) (row : List (String × Value)) :
    akeys (buildings.foldl (fun r b => addBuildingToRow schema r player b.1 b.2) row) =
      akeys row := by
  apply akeys_foldl
  intro r b
  exact akeys_addBuildingToRow schema r player b.1 b.2

theorem akeys_aset_fold (m : String → Value) :
    ∀ (cols : List String) (r : List (String × Value)), cols.Nodup →
    (∀ c ∈ cols, amem r c = false) →
    akeys (cols.foldl (fun r c => aset r c (m c)) r) = akeys r ++ cols := by
  intro cols
  induction cols with
  | nil => intro r _ _; simp
  | cons c cs ih =>
    intro r hnd hmem
    have hc : amem r c = false := hmem c (List.mem_cons_self c cs)
    have hnotin : c ∉ akeys r := by
      intro hm
      rw [(amem_iff_mem_akeys r c).mpr hm] at hc
      exact Bool.true_eq_false ▸ hc ▸ rfl
    rw [List.foldl_cons]
    have hstep : akeys (aset r c (m c)) = akeys r ++ [c] :=
      akeys_aset_of_not_mem _ _ _ hnotin
    have hmem' : ∀ c' ∈ cs, amem (aset r c (m c)) c' = false := by
      intro c' hc'
      have hne : c' ≠ c := by
        intro hcc
        rw [hcc] at hc'
        exact (List.nodup_cons.mp hnd).1 hc'
      rw [amem_aset_ne _ _ _ _ hne]
      exact hmem c' (List.mem_cons_of_mem _ hc')
    rw [ih (aset r c (m c)) (List.nodup_cons.mp hnd).2 hmem', hstep]
    simp

theorem akeys_initRow (schema : Schema) (hnd : schema.columns.Nodup) :
    akeys (initRow schema) = schema.columns := by
  have h := akeys_aset_fold (getMissingValue schema) schema.columns []
    hnd (fun c _ => by simp [amem, aget])
  simpa [initRow, akeys] using h

/-- C2: for every extracted frame state, the row built by `build_row` has
exactly the schema's registered ordered column list as its key list (every
registered column present, no extra keys), and `validate_row` accepts it.
The schema is any `SchemaManager` state with duplicate-free columns
containing the two base columns — an invariant of every reachable
`SchemaManager` (the constructor registers the base columns and every
registration is guarded by a membership test). -/
theorem c2_row_keys_match_schema (schema : Schema) (st : ExtractedState)
    (hnd : schema.columns.Nodup)
    (hgl : "game_loop" ∈ schema.columns)
    (hts : "timestamp_seconds" ∈ schema.columns) :
    akeys (buildRow schema st) = schema.columns ∧
    validateRow schema (buildRow schema st) = true := by
  have h0 : akeys (initRow schema) = schema.columns := akeys_initRow schema hnd
  have h1 : akeys (aset (initRow schema) "game_loop" (Value.vInt st.gameLoop)) =
      schema.columns := by
    rw [akeys_aset_of_mem _ _ _ (h0.symm ▸ hgl), h0]
  have h2 : akeys (aset (aset (initRow schema) "game_loop" (Value.vInt st.gameLoop))
      "timestamp_seconds" (Value.vRat ((st.gameLoop : Rat) / 22.4))) = schema.columns := by
    rw [akeys_aset_of_mem _ _ _ (h1.symm ▸ hts), h1]
  have hkeys : akeys (buildRow schema st) = schema.columns := by
    simp only [buildRow]
    rw [akeys_guarded_aset, akeys_addUnitCountsToRow, akeys_addUnitCountsToRow,
      akeys_addUpgradesToRow, akeys_addUpgradesToRow, akeys_addEconomyToRow,
      akeys_addEconomyToRow, akeys_buildingsFold, akeys_buildingsFold,
      akeys_unitsFold, akeys_unitsFold]
    exact h2
  refine ⟨hkeys, ?_⟩
  have hfilter : ∀ l : List String, l.filter (fun c => decide (c ∉ l)) = [] := by
    intro l
    rw [List.filter_eq_nil_iff]
    intro a ha
    simpa using ha
  simp [validateRow, hkeys, hfilter]

/-- Witness for `c2_row_keys_match_schema` at the fresh schema and an empty
frame state. -/
theorem c2_row_keys_match_schema_witness :
    Schema.init.columns.Nodup ∧
    akeys (buildRow Schema.init ⟨0, [], [], [], [], [], [], [], [], []⟩) =
      Schema.init.columns ∧
    validateRow Schema.init (buildRow Schema.init ⟨0, [], [], [], [], [], [], [], [], []⟩) =
      true :=
  ⟨by decide,
   (c2_row_keys_match_schema Schema.init ⟨0, [], [], [], [], [], [], [], [], []⟩
     (by decide) (by decide) (by decide)).1,
   (c2_row_keys_match_schema Schema.init ⟨0, [], [], [], [], [], [], [], [], []⟩
     (by decide) (by decide) (by decide)).2⟩

theorem string_append_left_cancel {s a b : String} (h : s ++ a = s ++ b) : a = b := by
  have hd : s.data ++ a.data = s.data ++ b.data := by
    have h2 := congrArg String.data h
    rwa [String.data_append, String.data_append] at h2
  exact String.ext (List.append_cancel_left hd)

theorem amem_congr_of_akeys {r r' : List (String × Value)} (h : akeys r' = akeys r)
    (c : String) : amem r' c = amem r c := by
  by_cases hm : amem r c
  · rw [hm]
    exact (amem_iff_mem_akeys r' c).mpr (h ▸ (amem_iff_mem_akeys r c).mp hm)
  · rw [Bool.eq_false_iff.mpr hm, Bool.eq_false_iff]
    intro hc
    exact hm ((amem_iff_mem_akeys r c).mpr (h ▸ (amem_iff_mem_akeys r' c).mp hc))

theorem aget_attrFold_untouched (schema : Schema) (data : List (String × Value))
    (prefixS : String) :
    ∀ (attrs : List String) (row : List (String × Value)) (c : String),
    (∀ a ∈ attrs, c ≠ prefixS ++ a) →
    aget (attrFold schema data prefixS attrs row) c = aget row c := by
  intro attrs
  induction attrs with
  | nil => intro row c _; rfl
  | cons a t ih =>
    intro row c h
    have hstep : attrFold schema data prefixS (a :: t) row =
        attrFold schema data prefixS t
          (if amem row (prefixS ++ a) then
            aset row (prefixS ++ a)
              ((aget data a).getD (getMissingValue schema (prefixS ++ a)))
          else row) := rfl
    rw [hstep, ih _ c (fun x hx => h x (List.mem_cons_of_mem a hx))]
    by_cases hm : amem row (prefixS ++ a)
    · rw [if_pos hm]
      exact aget_aset_ne _ _ _ _ (h a (List.mem_cons_self a t))
    · rw [if_neg hm]

theorem aget_attrFold_target (schema : Schema) (data : List (String × Value))
    (prefixS : String)
    (hinj : ∀ x y : String, prefixS ++ x = prefixS ++ y → x = y) :
    ∀ (attrs : List String) (row : List (String × Value)) (a : String),
    a ∈ attrs → attrs.Nodup → amem row (prefixS ++ a) = true →
    aget (attrFold schema data prefixS attrs row) (prefixS ++ a) =
      some ((aget data a).getD (getMissingValue schema (prefixS ++ a))) := by
  intro attrs
  induction attrs with
  | nil => intro row a ha; exact absurd ha (List.not_mem_nil a)
  | cons b t ih =>
    intro row a ha hnd hmem
    have hstep : attrFold schema data prefixS (b :: t) row =
        attrFold schema data prefixS t
          (if amem row (prefixS ++ b) then
            aset row (prefixS ++ b)
              ((aget data b).getD (getMissingValue schema (prefixS ++ b)))
          else row) := rfl
    rw [hstep]
    by_cases hab : a = b
    · subst hab
      have hnotint : ∀ x ∈ t, (prefixS ++ a : String) ≠ prefixS ++ x := by
        intro x hx hc
        have hax : a = x := hinj a x hc
        exact (List.nodup_cons.mp hnd).1 (hax ▸ hx)
      rw [aget_attrFold_untouched schema data prefixS t _ _ hnotint, if_pos hmem]
      exact aget_aset_self ..
    · have hat : a ∈ t := (List.mem_cons.mp ha).resolve_left hab
      have hmem' : amem (if amem row (prefixS ++ b) then
          aset row (prefixS ++ b)
            ((aget data b).getD (getMissingValue schema (prefixS ++ b)))
          else row) (prefixS ++ a) = true := by
        rw [amem_congr_of_akeys (akeys_guarded_aset row (prefixS ++ b) _) (prefixS ++ a)]
        exact hmem
      exact ih _ a hat (List.nodup_cons.mp hnd).2 hmem'

/-- The schema for the C6 scenario: base columns plus the registered columns
of one player-1 building with readable id `b1` (as `add_building_columns`
registers them). -/
def c6Schema : Schema := addBuildingColumns Schema.init "p1" "b1" "Barracks"

/-- The C6 frame state: at game loop 100, player 1's building `b1` is reported
destroyed; the building dict is exactly what `BuildingExtractor.extract`
emits for a destroyed building (building_extractor.py lines 322-326):
`tag`, `state='destroyed'` and `destroyed_loop`. -/
def c6State : ExtractedState :=
  { gameLoop := 100
    p1Units := [], p2Units := []
    p1Buildings := [("b1",
      [("tag", Value.vInt 7), ("state", Value.vStr "destroyed"),
       ("destroyed_loop", Value.vInt 100)])]
    p2Buildings := []
    p1Economy := [], p2Economy := []
    p1Upgrades := [], p2Upgrades := []
    messages := [] }

set_option maxRecDepth 4000 in
/-- C6, counterexample. For a building classified DESTROYED this frame, the
row does NOT set the terminal lifecycle column and does NOT leave all other
columns at their sentinels: the builder reads the key `status` while the
extractor emits `state`, so the status column stays at its sentinel (None),
while the construction-timestamp column `destroyed_loop` is set to the game
loop (its sentinel would be NaN). -/
theorem c6_destroyed_building_counterexample :
    aget (buildRow c6Schema c6State) "p1_b1_status" = some Value.vNull ∧
    getMissingValue c6Schema "p1_b1_status" = Value.vNull ∧
    Value.vNull ≠ Value.vStr "destroyed" ∧
    aget (buildRow c6Schema c6State) "p1_b1_destroyed_loop" = some (Value.vInt 100) ∧
    getMissingValue c6Schema "p1_b1_destroyed_loop" = Value.vNan ∧
    Value.vInt 100 ≠ Value.vNan := by
  decide

/-- C6, amended. (1) For a unit classified killed, `add_unit_to_row` writes
only the unit's state column: every other row cell is untouched. (2) For a
building, `add_building_to_row` writes each of the eight building columns
present in the row with `data.get(attr, sentinel)`; with the destroyed
building dict the extractor actually emits (keys `tag`, `state`,
`destroyed_loop`), the `status` column therefore receives its sentinel (the
dict has no `status` key) and `destroyed_loop` receives the recorded game
loop. -/
theorem c6_destroyed_writes_characterised (schema : Schema)
    (row : List (String × Value)) (player uid bid : String)
    (udata bdata : List (String × Value))
    (hkilled : aget udata "state" = some (Value.vStr "killed"))
    (hnostatus : aget bdata "status" = none)
    (hdl : aget bdata "destroyed_loop" = some (Value.vInt 100))
    (hsmem : amem row (player ++ "_" ++ bid ++ "_" ++ "status") = true)
    (hdmem : amem row (player ++ "_" ++ bid ++ "_" ++ "destroyed_loop") = true) :
    (∀ c, c ≠ player ++ "_" ++ uid ++ "_state" →
      aget (addUnitToRow schema row player uid udata) c = aget row c) ∧
    aget (addBuildingToRow schema row player bid bdata)
        (player ++ "_" ++ bid ++ "_" ++ "status") =
      some (getMissingValue schema (player ++ "_" ++ bid ++ "_" ++ "status")) ∧
    aget (addBuildingToRow schema row player bid bdata)
        (player ++ "_" ++ bid ++ "_" ++ "destroyed_loop") =
      some (Value.vInt 100) := by
  have hinj : ∀ x y : String, (player ++ "_" ++ bid ++ "_") ++ x =
      (player ++ "_" ++ bid ++ "_") ++ y → x = y := fun x y h =>
    string_append_left_cancel h
  refine ⟨?_, ?_, ?_⟩
  · intro c hc
    unfold addUnitToRow
    rw [if_pos hkilled]
    by_cases hm : amem row (player ++ "_" ++ uid ++ "_state")
    · rw [if_pos hm]
      exact aget_aset_ne _ _ _ _ hc
    · rw [if_neg hm]
  · have h := aget_attrFold_target schema bdata (player ++ "_" ++ bid ++ "_") hinj
      buildingRowAttrs row "status" (by decide) (by decide)
      (by
        have : player ++ "_" ++ bid ++ "_" ++ "status" =
            (player ++ "_" ++ bid ++ "_") ++ "status" := by
          simp [String.append_assoc]
        rw [← this]
        exact hsmem)
    unfold addBuildingToRow
    have hcol : (player ++ "_" ++ bid ++ "_") ++ "status" =
        player ++ "_" ++ bid ++ "_" ++ "status" := by simp [String.append_assoc]
    rw [hcol] at h
    rw [h, hnostatus]
    rfl
  · have h := aget_attrFold_target schema bdata (player ++ "_" ++ bid ++ "_") hinj
      buildingRowAttrs row "destroyed_loop" (by decide) (by decide)
      (by
        have : player ++ "_" ++ bid ++ "_" ++ "destroyed_loop" =
            (player ++ "_" ++ bid ++ "_") ++ "destroyed_loop" := by
          simp [String.append_assoc]
        rw [← this]
        exact hdmem)
    unfold addBuildingToRow
    have hcol : (player ++ "_" ++ bid ++ "_") ++ "destroyed_loop" =
        player ++ "_" ++ bid ++ "_" ++ "destroyed_loop" := by simp [String.append_assoc]
    rw [hcol] at h
    rw [h, hdl]
    rfl

/-- Witness for `c6_destroyed_writes_characterised` at a concrete row. -/
theorem c6_destroyed_writes_characterised_witness :
    aget (addUnitToRow c6Schema (initRow c6Schema) "p1" "u1"
        [("state", Value.vStr "killed")]) "game_loop" =
      aget (initRow c6Schema) "game_loop" ∧
    aget (addBuildingToRow c6Schema (initRow c6Schema) "p1" "b1"
        [("tag", Value.vInt 7), ("state", Value.vStr "destroyed"),
         ("destroyed_loop", Value.vInt 100)]) ("p1" ++ "_" ++ "b1" ++ "_" ++ "status") =
      some (getMissingValue c6Schema ("p1" ++ "_" ++ "b1" ++ "_" ++ "status")) ∧
    aget (addBuildingToRow c6Schema (initRow c6Schema) "p1" "b1"
        [("tag", Value.vInt 7), ("state", Value.vStr "destroyed"),
         ("destroyed_loop", Value.vInt 100)])
        ("p1" ++ "_" ++ "b1" ++ "_" ++ "destroyed_loop") =
      some (Value.vInt 100) := by
  have h := c6_destroyed_writes_characterised c6Schema (initRow c6Schema) "p1" "u1" "b1"
    [("state", Value.vStr "killed")]
    [("tag", Value.vInt 7), ("state", Value.vStr "destroyed"),
     ("destroyed_loop", Value.vInt 100)]
    (by decide) (by decide) (by decide) (by decide) (by decide)
  exact ⟨h.1 "game_loop" (by decide), h.2.1, h.2.2⟩

/-! ### `UnitExtractor` (src_new/extractors/unit_extractor.py) -/

/-- `BUILDING_TYPES` of unit_extractor.py (lines 30-78). -/
def unitBuildingTypes : List Nat :=
  [18, 19, 20, 21, 27, 28, 29, 41, 43, 45, 46, 47, 48,
   59, 60, 61, 62, 63, 66, 67, 68, 69, 70, 71, 72, 73, 74, 75,
   86, 88, 89, 90, 91, 92, 93, 94, 95, 96, 97, 98, 99, 100]

/-- `is_building` of unit_extractor.py (lines 81-83). -/
def isBuildingU (unitTypeId : Nat) : Bool := decide (unitTypeId ∈ unitBuildingTypes)

/-- One raw unit snapshot, with the fields `UnitExtractor.extract` reads. -/
structure RawUnit where
  tag : Nat
  owner : Nat
  unitType : Nat
  x : Rat
  y : Rat
  z : Rat
  facing : Rat
  health : Rat
  healthMax : Rat
  shield : Rat
  shieldMax : Rat
  energy : Rat
  energyMax : Rat
  buildProgress : Rat
  isFlying : Bool
  isBurrowed : Bool
  isHallucination : Bool
  weaponCooldown : Rat
  attackUpgradeLevel : Int
  armorUpgradeLevel : Int
  shieldUpgradeLevel : Int
  radius : Rat
  cargoSpaceTaken : Int
  cargoSpaceMax : Int
  orderCount : Nat
deriving DecidableEq

/-- `UnitExtractor` state (lines 110-129). The unit-type-name lookup
(`pysc2.lib.units`) is an external table, passed as a function argument
below. -/
structure UnitExtractor where
  playerId : Nat
  tagToReadableId : List (Nat × String)
  unitTypeCounters : List (Nat × Nat)
  previousTags : List Nat
  allSeenTags : List Nat
deriving DecidableEq

def UnitExtractor.initFor (pid : Nat) : UnitExtractor := ⟨pid, [], [], [], []⟩

/-- `f"p{player_id}_{unit_type_name}_{counter:03d}"`. -/
def mkReadableId (pid : Nat) (name : String) (counter : Nat) : String :=
  "p" ++ String.mk (natToDec pid) ++ "_" ++ name ++ "_" ++ String.mk (pad3 counter)

/-- `UnitExtractor._assign_readable_id` (lines 258-282). The `tag` argument is
accepted, as in the source, and not used. -/
def assignReadableId (nameOf : Nat → String) (s : UnitExtractor) (unitTypeId tag : Nat) :
    UnitExtractor × String :=
  let unitTypeName := pyLower (nameOf unitTypeId)
  let counters0 := if (aget s.unitTypeCounters unitTypeId).isSome then s.unitTypeCounters
    else aset s.unitTypeCounters unitTypeId 1
  let counter := (aget counters0 unitTypeId).getD 1
  ({ s with unitTypeCounters := aset counters0 unitTypeId (counter + 1) },
   mkReadableId s.playerId unitTypeName counter)

/-- The id-registration step of the `extract` main loop (lines 181-185):
assign a readable id only for a tag not yet registered. -/
def registerObs (nameOf : Nat → String) (s : UnitExtractor) (o : Nat × Nat) : UnitExtractor :=
  if (aget s.tagToReadableId o.1).isSome then s
  else
    let r := assignReadableId nameOf s o.2 o.1
    { r.1 with tagToReadableId := aset r.1.tagToReadableId o.1 r.2 }

/-- `UnitExtractor._determine_state` (lines 284-304). -/
def determineState (s : UnitExtractor) (tag : Nat) (u : RawUnit) : String :=
  if tag ∉ s.previousTags then "built"
  else if u.buildProgress < 1 then "built"
  else "existing"

/-- The unit dict built in the `extract` main loop (lines 191-228). -/
def mkUnitData (nameOf : Nat → String) (u : RawUnit) (state : String) :
    List (String × Value) :=
  [("tag", Value.vInt u.tag), ("unit_type_id", Value.vInt u.unitType),
   ("unit_type_name", Value.vStr (nameOf u.unitType)),
   ("x", Value.vRat u.x), ("y", Value.vRat u.y), ("z", Value.vRat u.z),
   ("facing", Value.vRat u.facing),
   ("health", Value.vRat u.health), ("health_max", Value.vRat u.healthMax),
   ("shields", Value.vRat u.shield), ("shields_max", Value.vRat u.shieldMax),
   ("energy", Value.vRat u.energy), ("energy_max", Value.vRat u.energyMax),
   ("state", Value.vStr state), ("build_progress", Value.vRat u.buildProgress),
   ("is_flying", Value.vBool u.isFlying), ("is_burrowed", Value.vBool u.isBurrowed),
   ("is_hallucination", Value.vBool u.isHallucination),
   ("weapon_cooldown", Value.vRat u.weaponCooldown),
   ("attack_upgrade_level", Value.vInt u.attackUpgradeLevel),
   ("armor_upgrade_level", Value.vInt u.armorUpgradeLevel),
   ("shield_upgrade_level", Value.vInt u.shieldUpgradeLevel),
   ("radius", Value.vRat u.radius),
   ("cargo_space_taken", Value.vInt u.cargoSpaceTaken),
   ("cargo_space_max", Value.vInt u.cargoSpaceMax),
   ("order_count", Value.vInt u.orderCount)]

/-- The killed-unit dict of the `extract` dead loops (lines 238-241, 248-251). -/
def mkKilledData (tag : Nat) : List (String × Value) :=
  [("tag", Value.vInt tag), ("state", Value.vStr "killed")]

/-- One iteration of the `extract` main loop (lines 166-230): owner and
building filters, tag bookkeeping, id assignment, state detection, dict
construction. -/
def extractStep (nameOf : Nat → String)
    (acc : UnitExtractor × List Nat × List (String × List (String × Value)))
    (u : RawUnit) : UnitExtractor × List Nat × List (String × List (String × Value)) :=
  if u.owner ≠ acc.1.playerId then acc
  else if isBuildingU u.unitType then acc
  else
    let s := { acc.1 with allSeenTags := acc.1.allSeenTags ++ [u.tag] }
    let s2 := registerObs nameOf s (u.tag, u.unitType)
    let readableId := (aget s2.tagToReadableId u.tag).getD ""
    (s2, acc.2.1 ++ [u.tag],
     aset acc.2.2 readableId (mkUnitData nameOf u (determineState s2 u.tag u)))

/-- The `extract` absent-dead loop (lines 232-241): previously-seen tags not in
the current frame are reported killed. -/
def extractDeadAbsent (s1 : UnitExtractor) (currentTags : List Nat)
    (unitsData : List (String × List (String × Value))) :
    List (String × List (String × Value)) :=
  (s1.previousTags.filter (fun t => decide (t ∉ currentTags))).foldl
    (fun ud deadTag =>
      match aget s1.tagToReadableId deadTag with
      | some rid => aset ud rid (mkKilledData deadTag)
      | none => ud) unitsData

/-- The `extract` explicit-dead loop (lines 243-251): tags in the observation's
`dead_units` event are reported killed only if registered, seen before, and —
crucially — their readable id is not already present in this frame's output. -/
def extractDeadExplicit (s1 : UnitExtractor) (deadUnits : List Nat)
    (unitsData : List (String × List (String × Value))) :
    List (String × List (String × Value)) :=
  deadUnits.foldl (fun ud deadTag =>
    match aget s1.tagToReadableId deadTag with
    | some rid =>
        if deadTag ∈ s1.allSeenTags then
          if amem ud rid then ud else aset ud rid (mkKilledData deadTag)
        else ud
    | none => ud) unitsData

/-- `UnitExtractor.extract` (lines 131-256). -/
def extract (nameOf : Nat → String) (s : UnitExtractor) (units : List RawUnit)
    (deadUnits : List Nat) :
    UnitExtractor × List (String × List (String × Value)) :=
  let r := units.foldl (extractStep nameOf) (s, [], [])
  let ud1 := extractDeadAbsent r.1 r.2.1 r.2.2
  let ud2 := extractDeadExplicit r.1 deadUnits ud1
  ({ r.1 with previousTags := r.2.1 }, ud2)

/-- A concrete external type-name table for the C3 scenario. -/
def c3NameOf : Nat → String := fun _ => "Marine"

/-- A concrete marine: tag 5, player 1, type 48 (not a building), fully built. -/
def c3Unit : RawUnit :=
  { tag := 5, owner := 1, unitType := 51
    x := 0, y := 0, z := 0, facing := 0
    health := 45, healthMax := 45, shield := 0, shieldMax := 0
    energy := 0, energyMax := 0
    buildProgress := 1
    isFlying := false, isBurrowed := false, isHallucination := false
    weaponCooldown := 0
    attackUpgradeLevel := 0, armorUpgradeLevel := 0, shieldUpgradeLevel := 0
    radius := 0, cargoSpaceTaken := 0, cargoSpaceMax := 0, orderCount := 0 }

set_option maxRecDepth 4000 in
/-- C3, counterexample. Tag 5 is observed at frame 1; at frame 2 it is still
present in the observation AND listed in the explicit destroyed set. The
claim requires DESTROYED (the explicit flag taking precedence); the code
reports `existing`: the explicit-dead loop is guarded by
`if readable_id not in units_data`, so presence data wins over the flag. -/
theorem c3_explicit_flag_counterexample :
    ((aget (extract c3NameOf (extract c3NameOf (UnitExtractor.initFor 1) [c3Unit] []).1
        [c3Unit] [5]).2 "p1_marine_001").map (fun d => aget d "state")) =
      some (some (Value.vStr "existing")) ∧
    Value.vStr "existing" ≠ Value.vStr "killed" := by
  decide

theorem aget_extractDeadExplicit_of_isSome (s1 : UnitExtractor) (deadUnits : List Nat) :
    ∀ (ud : List (String × List (String × Value))) (rid : String),
    (aget ud rid).isSome →
    aget (extractDeadExplicit s1 deadUnits ud) rid = aget ud rid := by
  induction deadUnits with
  | nil => intro ud rid _; rfl
  | cons d t ih =>
    intro ud rid h
    have hstep : ∀ ud', extractDeadExplicit s1 (d :: t) ud' =
        extractDeadExplicit s1 t
          (match aget s1.tagToReadableId d with
           | some rid' =>
               if d ∈ s1.allSeenTags then
                 if amem ud' rid' then ud' else aset ud' rid' (mkKilledData d)
               else ud'
           | none => ud') := fun _ => rfl
    rw [hstep]
    match hlook : aget s1.tagToReadableId d with
    | none => simpa using ih ud rid h
    | some rid' =>
      by_cases hseen : d ∈ s1.allSeenTags
      · by_cases hmem : amem ud rid'
        · simp only [hseen, hmem, if_true]
          exact ih ud rid h
        · have hne : rid ≠ rid' := by
            intro hc
            rw [hc] at h
            exact hmem h
          simp only [hseen, hmem, if_true, Bool.false_eq_true, if_false]
          rw [ih _ rid (by rw [aget_aset_ne _ _ _ _ hne]; exact h)]
          exact aget_aset_ne _ _ _ _ hne
      · simp only [hseen, if_false]
        exact ih ud rid h

/-- C3, amended. Absence is classified killed, but the explicit destroyed
flag does NOT take precedence over presence. (1) If the single
previously-active tag is absent from this frame's observation, the extractor
reports it killed, for any explicit destroyed set. (2) If a registered,
previously-active tag is present in this frame's observation (passing the
owner and building filters), its entry carries the state computed from
presence and build progress — never `killed` — even when the tag is listed in
the explicit destroyed set. -/
theorem c3_absent_killed_present_wins :
    (∀ (nameOf : Nat → String) (s : UnitExtractor) (tag : Nat) (rid : String)
      (dead : List Nat),
      s.previousTags = [tag] → aget s.tagToReadableId tag = some rid →
      aget (extract nameOf s [] dead).2 rid = some (mkKilledData tag)) ∧
    (∀ (nameOf : Nat → String) (s : UnitExtractor) (u : RawUnit) (rid : String)
      (dead : List Nat),
      u.owner = s.playerId → isBuildingU u.unitType = false →
      s.previousTags = [u.tag] → aget s.tagToReadableId u.tag = some rid →
      aget (extract nameOf s [u] dead).2 rid =
        some (mkUnitData nameOf u (determineState s u.tag u)) ∧
      determineState s u.tag u ≠ "killed") := by
  constructor
  · intro nameOf s tag rid dead hprev hreg
    show aget (extractDeadExplicit s dead (extractDeadAbsent s [] [])) rid = _
    have habs : extractDeadAbsent s [] [] = [(rid, mkKilledData tag)] := by
      unfold extractDeadAbsent
      rw [hprev]
      have hf : ([tag].filter (fun t => decide (t ∉ ([] : List Nat)))) = [tag] := by simp
      rw [hf, List.foldl_cons, List.foldl_nil, hreg]
      rfl
    rw [habs]
    rw [aget_extractDeadExplicit_of_isSome s dead _ rid (by simp [aget, List.find?])]
    simp [aget, List.find?]
  · intro nameOf s u rid dead howner hbuild hprev hreg
    have hstate : determineState s u.tag u ≠ "killed" := by
      unfold determineState
      split
      · decide
      · split <;> decide
    refine ⟨?_, hstate⟩
    simp only [extract, List.foldl_cons, List.foldl_nil, extractStep, registerObs]
    rw [if_neg (by simp [howner])]
    rw [if_neg (by rw [hbuild]; exact Bool.false_ne_true)]
    simp only [hreg, Option.isSome_some, if_true, Option.getD_some]
    have hdet : determineState { s with allSeenTags := s.allSeenTags ++ [u.tag] } u.tag u =
        determineState s u.tag u := rfl
    rw [hdet]
    have haset : aset ([] : List (String × List (String × Value))) rid
        (mkUnitData nameOf u (determineState s u.tag u)) =
        [(rid, mkUnitData nameOf u (determineState s u.tag u))] := rfl
    rw [haset]
    have habs : extractDeadAbsent { s with allSeenTags := s.allSeenTags ++ [u.tag] }
        ([] ++ [u.tag]) [(rid, mkUnitData nameOf u (determineState s u.tag u))] =
        [(rid, mkUnitData nameOf u (determineState s u.tag u))] := by
      simp only [extractDeadAbsent, hprev]
      simp
    rw [habs]
    rw [aget_extractDeadExplicit_of_isSome _ dead _ rid (by simp [aget, List.find?])]
    simp [aget, List.find?]

/-- Witness for `c3_absent_killed_present_wins` at concrete inputs. -/
theorem c3_absent_killed_present_wins_witness :
    aget (extract c3NameOf
        ⟨1, [(5, "p1_marine_001")], [(51, 2)], [5], [5]⟩ [] [5]).2 "p1_marine_001" =
      some (mkKilledData 5) ∧
    aget (extract c3NameOf
        ⟨1, [(5, "p1_marine_001")], [(51, 2)], [5], [5]⟩ [c3Unit] [5]).2 "p1_marine_001" =
      some (mkUnitData c3NameOf c3Unit
        (determineState ⟨1, [(5, "p1_marine_001")], [(51, 2)], [5], [5]⟩ 5 c3Unit)) :=
  ⟨c3_absent_killed_present_wins.1 c3NameOf
     ⟨1, [(5, "p1_marine_001")], [(51, 2)], [5], [5]⟩ 5 "p1_marine_001" [5]
     (by decide) (by decide),
   (c3_absent_killed_present_wins.2 c3NameOf
     ⟨1, [(5, "p1_marine_001")], [(51, 2)], [5], [5]⟩ c3Unit "p1_marine_001" [5]
     (by decide) (by decide) (by decide) (by decide)).1⟩

/-! ### C4: schema-column determinism and order-independent discovery -/

/-- `aset` on an absent key is an append. -/
theorem aset_eq_append {κ α : Type} [DecidableEq κ] (l : List (κ × α)) (k : κ) (v : α)
    (h : aget l k = none) : aset l k v = l ++ [(k, v)] := by
  have hf : (l.find? (fun p => decide (p.1 = k))).isSome = false := by
    rw [isSome_find_iff_aget, h]
    rfl
  simp [aset, hf]

/-- Number of observations of type `ty` in an observation stream
(`(tag, unit_type)` pairs). -/
def cntTy (obs : List (Nat × Nat)) (ty : Nat) : Nat :=
  (obs.filter (fun o => decide (o.2 = ty))).length

theorem cntTy_append_same (p : List (Nat × Nat)) (o : Nat × Nat) :
    cntTy (p ++ [o]) o.2 = cntTy p o.2 + 1 := by
  simp [cntTy]

theorem cntTy_append_ne (p : List (Nat × Nat)) (o : Nat × Nat) (ty : Nat) (h : ty ≠ o.2) :
    cntTy (p ++ [o]) ty = cntTy p ty := by
  simp [cntTy, List.filter_append, Ne.symm h]

/-- The id-registration scan: the `extract` main loop restricted to what it
does to `tag_to_readable_id` and `unit_type_counters`. -/
def runRegistration (nameOf : Nat → String) (pid : Nat) (obs : List (Nat × Nat)) :
    UnitExtractor :=
  obs.foldl (registerObs nameOf) (UnitExtractor.initFor pid)

/-- Invariant of the registration scan: registered tags are exactly the
processed tags, the per-type counter is one above the number of processed
observations of that type, and the registered readable ids are exactly
`p{pid}_{lower(name ty)}_{k:03d}` for `1 ≤ k ≤` (count of type `ty`). -/
def RegInv (nameOf : Nat → String) (pid : Nat) (processed : List (Nat × Nat))
    (s : UnitExtractor) : Prop :=
  s.playerId = pid ∧
  (∀ t, (aget s.tagToReadableId t).isSome ↔ t ∈ processed.map Prod.fst) ∧
  (∀ ty, aget s.unitTypeCounters ty =
    if cntTy processed ty = 0 then none else some (cntTy processed ty + 1)) ∧
  (∀ id, id ∈ s.tagToReadableId.map Prod.snd ↔
    ∃ ty k, 1 ≤ k ∧ k ≤ cntTy processed ty ∧
      id = mkReadableId pid (pyLower (nameOf ty)) k)

theorem regInv_init (nameOf : Nat → String) (pid : Nat) :
    RegInv nameOf pid [] (UnitExtractor.initFor pid) := by
  refine ⟨rfl, ?_, ?_, ?_⟩
  · intro t
    simp [UnitExtractor.initFor, aget]
  · intro ty
    simp [UnitExtractor.initFor, aget, cntTy]
  · intro id
    simp only [UnitExtractor.initFor, List.map_nil, List.not_mem_nil, false_iff]
    rintro ⟨ty, k, hk1, hk2, -⟩
    simp [cntTy] at hk2
    omega

theorem regInv_step (nameOf : Nat → String) (pid : Nat) (processed : List (Nat × Nat))
    (s : UnitExtractor) (o : Nat × Nat) (hinv : RegInv nameOf pid processed s)
    (hfresh : o.1 ∉ processed.map Prod.fst) :
    RegInv nameOf pid (processed ++ [o]) (registerObs nameOf s o) := by
  obtain ⟨hpid, htags, hcnt, hids⟩ := hinv
  have hnone : aget s.tagToReadableId o.1 = none := by
    cases h : aget s.tagToReadableId o.1 with
    | none => rfl
    | some v =>
      exact absurd ((htags o.1).mp (by rw [h]; rfl)) hfresh
  have hnotsome : ¬(aget s.tagToReadableId o.1).isSome = true := by
    rw [hnone]
    simp
  -- the counter handed out for o.2 is cntTy processed o.2 + 1
  have hcounter :
      (aget (if (aget s.unitTypeCounters o.2).isSome then s.unitTypeCounters
        else aset s.unitTypeCounters o.2 1) o.2).getD 1 = cntTy processed o.2 + 1 := by
    by_cases hz : cntTy processed o.2 = 0
    · have h0 : aget s.unitTypeCounters o.2 = none := by rw [hcnt o.2, if_pos hz]
      rw [if_neg (by rw [h0]; simp), aget_aset_self, hz]
      rfl
    · have h0 : aget s.unitTypeCounters o.2 = some (cntTy processed o.2 + 1) := by
        rw [hcnt o.2, if_neg hz]
      rw [if_pos (by rw [h0]; rfl), h0]
      rfl
  have hregf : registerObs nameOf s o =
      { s with
        unitTypeCounters :=
          aset (if (aget s.unitTypeCounters o.2).isSome then s.unitTypeCounters
            else aset s.unitTypeCounters o.2 1) o.2 (cntTy processed o.2 + 1 + 1),
        tagToReadableId :=
          aset s.tagToReadableId o.1
            (mkReadableId s.playerId (pyLower (nameOf o.2)) (cntTy processed o.2 + 1)) } := by
    simp only [registerObs, assignReadableId]
    rw [if_neg hnotsome, hcounter]
  rw [hregf]
  have hnewreg : aset s.tagToReadableId o.1
      (mkReadableId s.playerId (pyLower (nameOf o.2)) (cntTy processed o.2 + 1)) =
      s.tagToReadableId ++
        [(o.1, mkReadableId s.playerId (pyLower (nameOf o.2)) (cntTy processed o.2 + 1))] :=
    aset_eq_append _ _ _ hnone
  refine ⟨hpid, ?_, ?_, ?_⟩
  · intro t
    by_cases ht : t = o.1
    · subst ht
      rw [aget_aset_self]
      simp
    · rw [aget_aset_ne _ _ _ _ ht, htags t]
      simp only [List.map_append, List.mem_append, List.map_cons, List.map_nil,
        List.mem_cons, List.not_mem_nil, or_false]
      constructor
      · exact Or.inl
      · rintro (h | h)
        · exact h
        · exact absurd h ht
  · intro ty
    by_cases hty : ty = o.2
    · subst hty
      rw [aget_aset_self, cntTy_append_same]
      rw [if_neg (by omega)]
    · rw [aget_aset_ne _ _ _ _ hty, cntTy_append_ne _ _ _ hty]
      by_cases hz : (aget s.unitTypeCounters o.2).isSome
      · rw [if_pos hz]
        exact hcnt ty
      · rw [if_neg hz, aget_aset_ne _ _ _ _ hty]
        exact hcnt ty
  · intro id
    rw [hnewreg, hpid]
    simp only [List.map_append, List.mem_append, List.map_cons, List.map_nil,
      List.mem_cons, List.not_mem_nil, or_false]
    rw [hids id]
    constructor
    · rintro (⟨ty, k, hk1, hk2, hid⟩ | hid)
      · refine ⟨ty, k, hk1, ?_, hid⟩
        by_cases hty : ty = o.2
        · subst hty
          rw [cntTy_append_same]
          omega
        · rw [cntTy_append_ne _ _ _ hty]
          exact hk2
      · exact ⟨o.2, cntTy processed o.2 + 1, by omega,
          by rw [cntTy_append_same], hid⟩
    · rintro ⟨ty, k, hk1, hk2, hid⟩
      by_cases hty : ty = o.2
      · subst hty
        rw [cntTy_append_same] at hk2
        by_cases hk : k ≤ cntTy processed o.2
        · exact Or.inl ⟨o.2, k, hk1, hk, hid⟩
        · have : k = cntTy processed o.2 + 1 := by omega
          subst this
          exact Or.inr hid
      · rw [cntTy_append_ne _ _ _ hty] at hk2
        exact Or.inl ⟨ty, k, hk1, hk2, hid⟩

theorem regInv_run (nameOf : Nat → String) (pid : Nat) :
    ∀ (obs processed : List (Nat × Nat)) (s : UnitExtractor),
    RegInv nameOf pid processed s → ((processed ++ obs).map Prod.fst).Nodup →
    RegInv nameOf pid (processed ++ obs) (obs.foldl (registerObs nameOf) s) := by
  intro obs
  induction obs with
  | nil =>
    intro processed s hinv _
    simpa using hinv
  | cons o rest ih =>
    intro processed s hinv hnd
    have hfresh : o.1 ∉ processed.map Prod.fst := by
      have h := hnd
      rw [List.map_append, List.nodup_append] at h
      intro hc
      exact h.2.2 hc (by simp)
    have hstep := regInv_step nameOf pid processed s o hinv hfresh
    have hre : processed ++ o :: rest = (processed ++ [o]) ++ rest := by simp
    rw [hre] at hnd ⊢
    exact ih (processed ++ [o]) (registerObs nameOf s o) hstep hnd

/-- The registered readable ids after a scan. -/
def discoveredIds (nameOf : Nat → String) (pid : Nat) (obs : List (Nat × Nat)) :
    List String :=
  (runRegistration nameOf pid obs).tagToReadableId.map Prod.snd

theorem mem_discoveredIds (nameOf : Nat → String) (pid : Nat) (obs : List (Nat × Nat))
    (hnd : (obs.map Prod.fst).Nodup) (id : String) :
    id ∈ discoveredIds nameOf pid obs ↔
      ∃ ty k, 1 ≤ k ∧ k ≤ cntTy obs ty ∧
        id = mkReadableId pid (pyLower (nameOf ty)) k := by
  have h := regInv_run nameOf pid obs [] (UnitExtractor.initFor pid)
    (regInv_init nameOf pid) (by simpa using hnd)
  simpa [discoveredIds, runRegistration] using h.2.2.2 id

theorem mem_addColumn_columns (s : Schema) (n d de m : String) (c : String) :
    c ∈ (addColumn s n d de m).columns ↔ c ∈ s.columns ∨ c = n := by
  unfold addColumn
  by_cases h : n ∈ s.columns
  · rw [if_pos h]
    constructor
    · exact Or.inl
    · rintro (hc | hc)
      · exact hc
      · rw [hc]; exact h
  · rw [if_neg h]
    simp

theorem mem_addUnitColumns_columns (s : Schema) (player uid utName : String) (c : String) :
    c ∈ (addUnitColumns s player uid utName).columns ↔
      c ∈ s.columns ∨ ∃ sp ∈ unitColumnSpecs, c = player ++ "_" ++ uid ++ "_" ++ sp.1 := by
  unfold addUnitColumns
  have h : ∀ (specs : List (String × String × String)) (s0 : Schema),
      c ∈ (specs.foldl (fun s spec =>
        addColumn s (player ++ "_" ++ uid ++ "_" ++ spec.1) spec.2.1
          (spec.2.2 ++ " for " ++ player ++ " " ++ utName ++ " " ++ uid)
          (sentinelDoc spec.2.1)) s0).columns ↔
      c ∈ s0.columns ∨ ∃ sp ∈ specs, c = player ++ "_" ++ uid ++ "_" ++ sp.1 := by
    intro specs
    induction specs with
    | nil => intro s0; simp
    | cons sp t ih =>
      intro s0
      rw [List.foldl_cons, ih, mem_addColumn_columns]
      constructor
      · rintro ((hc | hc) | ⟨sp', hsp', hc⟩)
        · exact Or.inl hc
        · exact Or.inr ⟨sp, List.mem_cons_self sp t, hc⟩
        · exact Or.inr ⟨sp', List.mem_cons_of_mem sp hsp', hc⟩
      · rintro (hc | ⟨sp', hsp', hc⟩)
        · exact Or.inl (Or.inl hc)
        · rcases List.mem_cons.mp hsp' with h1 | h1
          · exact Or.inl (Or.inr (h1 ▸ hc))
          · exact Or.inr ⟨sp', h1, hc⟩
  exact h unitColumnSpecs s

/-- `SchemaManager._discover_entities_from_state` restricted to one player's
units (lines 120-127): register the unit columns of each not-yet-seen unit id
in scan order. -/
def discoverSchema (schema0 : Schema) (player utName : String) (ids : List String) :
    Schema :=
  ids.foldl (fun sch id => addUnitColumns sch player id utName) schema0

theorem mem_discoverSchema (schema0 : Schema) (player utName : String)
    (ids : List String) (c : String) :
    c ∈ (discoverSchema schema0 player utName ids).columns ↔
      c ∈ schema0.columns ∨
        ∃ id ∈ ids, ∃ sp ∈ unitColumnSpecs, c = player ++ "_" ++ id ++ "_" ++ sp.1 := by
  unfold discoverSchema
  induction ids generalizing schema0 with
  | nil => simp
  | cons id t ih =>
    rw [List.foldl_cons, ih, mem_addUnitColumns_columns]
    constructor
    · rintro ((hc | ⟨sp, hsp, hc⟩) | ⟨id', hid', sp, hsp, hc⟩)
      · exact Or.inl hc
      · exact Or.inr ⟨id, List.mem_cons_self id t, sp, hsp, hc⟩
      · exact Or.inr ⟨id', List.mem_cons_of_mem id hid', sp, hsp, hc⟩
    · rintro (hc | ⟨id', hid', sp, hsp, hc⟩)
      · exact Or.inl (Or.inl hc)
      · rcases List.mem_cons.mp hid' with h1 | h1
        · exact Or.inl (Or.inr ⟨sp, hsp, h1 ▸ hc⟩)
        · exact Or.inr ⟨id', h1, sp, hsp, hc⟩

/-- C4: generated schema column names are pure functions of (owner, type,
per-type sequence number, attribute): `_assign_readable_id` does not read the
tag at all (first conjunct, an identity of the embedded function), and two
discovery scans over permutations of the same duplicate-free observation
stream register exactly the same set of unit columns (second conjunct). -/
theorem c4_columns_tag_free_order_independent
    (nameOf : Nat → String) (pid : Nat) (schema0 : Schema) (player utName : String)
    (l₁ l₂ : List (Nat × Nat)) (hperm : l₁.Perm l₂) (hnd : (l₁.map Prod.fst).Nodup) :
    (∀ (s : UnitExtractor) (ty t t' : Nat),
      assignReadableId nameOf s ty t = assignReadableId nameOf s ty t') ∧
    (∀ col,
      col ∈ (discoverSchema schema0 player utName
        (discoveredIds nameOf pid l₁)).columns ↔
      col ∈ (discoverSchema schema0 player utName
        (discoveredIds nameOf pid l₂)).columns) := by
  constructor
  · intro s ty t t'
    rfl
  · intro col
    have hnd₂ : (l₂.map Prod.fst).Nodup := ((hperm.map Prod.fst).nodup_iff).mp hnd
    have hcnt : ∀ ty, cntTy l₁ ty = cntTy l₂ ty := by
      intro ty
      unfold cntTy
      exact (hperm.filter (fun o => decide (o.2 = ty))).length_eq
    rw [mem_discoverSchema, mem_discoverSchema]
    constructor
    · rintro (hc | ⟨id, hid, sp, hsp, hc⟩)
      · exact Or.inl hc
      · refine Or.inr ⟨id, ?_, sp, hsp, hc⟩
        rw [mem_discoveredIds nameOf pid l₂ hnd₂]
        obtain ⟨ty, k, hk1, hk2, hidv⟩ := (mem_discoveredIds nameOf pid l₁ hnd id).mp hid
        exact ⟨ty, k, hk1, hcnt ty ▸ hk2, hidv⟩
    · rintro (hc | ⟨id, hid, sp, hsp, hc⟩)
      · exact Or.inl hc
      · refine Or.inr ⟨id, ?_, sp, hsp, hc⟩
        rw [mem_discoveredIds nameOf pid l₁ hnd]
        obtain ⟨ty, k, hk1, hk2, hidv⟩ := (mem_discoveredIds nameOf pid l₂ hnd₂ id).mp hid
        exact ⟨ty, k, hk1, (hcnt ty).symm ▸ hk2, hidv⟩

/-- Witness for `c4_columns_tag_free_order_independent`: two two-observation
scans in opposite orders (tags 5 and 9, types 51 and 73) discover the same
column set. -/
theorem c4_columns_tag_free_order_independent_witness :
    ([(5, 51), (9, 73)] : List (Nat × Nat)).Perm [(9, 73), (5, 51)] ∧
    (("p1" ++ "_" ++ "p1_marine_001" ++ "_" ++ "x") ∈
      (discoverSchema Schema.init "p1" "Marine"
        (discoveredIds c3NameOf 1 [(5, 51), (9, 73)])).columns ↔
     ("p1" ++ "_" ++ "p1_marine_001" ++ "_" ++ "x") ∈
      (discoverSchema Schema.init "p1" "Marine"
        (discoveredIds c3NameOf 1 [(9, 73), (5, 51)])).columns) :=
  ⟨by decide,
   (c4_columns_tag_free_order_independent c3NameOf 1 Schema.init "p1" "Marine"
     [(5, 51), (9, 73)] [(9, 73), (5, 51)] (by decide) (by decide)).2
     ("p1" ++ "_" ++ "p1_marine_001" ++ "_" ++ "x")⟩

/-! ### `BuildingExtractor` completion tracking
(src_new/extractors/building_extractor.py, lines 247-254) -/

/-- The completion/progress bookkeeping of `BuildingExtractor`:
`completion_timestamps : tag -> game_loop`, `previous_build_progress`. -/
structure CompletionState where
  completionTimestamps : List (Nat × Int)
  previousBuildProgress : List (Nat × Rat)
deriving DecidableEq

def CompletionState.init : CompletionState := ⟨[], []⟩

/-- One observation of a building (lines 247-254): if the tag has no recorded
completion and progress has reached 1.0 while the previously recorded
progress (default 0.0) was below 1.0, record the completion loop; then update
the recorded progress. -/
def completionStep (tag : Nat) (cs : CompletionState) (gameLoop : Int) (progress : Rat) :
    CompletionState :=
  let cs1 :=
    if ¬(aget cs.completionTimestamps tag).isSome ∧ 1 ≤ progress then
      (if (aget cs.previousBuildProgress tag).getD 0 < 1 then
        { cs with completionTimestamps := aset cs.completionTimestamps tag gameLoop }
      else cs)
    else cs
  { cs1 with previousBuildProgress := aset cs1.previousBuildProgress tag progress }

/-- Fold the completion bookkeeping over the frames in which one building is
observed, as `(game_loop, build_progress)` pairs in frame order. -/
def runCompletion (tag : Nat) (frames : List (Int × Rat)) : CompletionState :=
  frames.foldl (fun cs f => completionStep tag cs f.1 f.2) CompletionState.init

theorem find?_append_of_some {α : Type} (p : α → Bool) (l l' : List α) (a : α)
    (h : l.find? p = some a) : (l ++ l').find? p = some a := by
  induction l with
  | nil => simp [List.find?] at h
  | cons x t ih =>
    by_cases hx : p x
    · simp only [List.find?, hx] at h ⊢
      exact h
    · simp only [List.cons_append, List.find?, hx] at h ⊢
      exact ih h

theorem find?_append_of_none {α : Type} (p : α → Bool) (l l' : List α)
    (h : l.find? p = none) : (l ++ l').find? p = l'.find? p := by
  induction l with
  | nil => rfl
  | cons x t ih =>
    by_cases hx : p x
    · simp [List.find?, hx] at h
    · simp only [List.cons_append, List.find?, hx] at h ⊢
      exact ih h

theorem runCompletion_characterisation (tag : Nat) (frames : List (Int × Rat)) :
    aget (runCompletion tag frames).completionTimestamps tag =
      (frames.find? (fun f => decide (1 ≤ f.2))).map Prod.fst ∧
    aget (runCompletion tag frames).previousBuildProgress tag =
      frames.getLast?.map Prod.snd := by
  unfold runCompletion
  induction frames using List.reverseRecOn with
  | nil => exact ⟨rfl, rfl⟩
  | append_singleton l f ih =>
    rw [List.foldl_append, List.foldl_cons, List.foldl_nil]
    obtain ⟨ihc, ihp⟩ := ih
    set cs0 := l.foldl (fun cs f => completionStep tag cs f.1 f.2) CompletionState.init
      with hcs0
    have hlast : (l ++ [f]).getLast? = some f := by
      simp
    constructor
    · cases hfind : l.find? (fun f => decide (1 ≤ f.2)) with
      | some g =>
        rw [find?_append_of_some _ _ _ _ hfind]
        have hsome : (aget cs0.completionTimestamps tag).isSome := by
          rw [ihc, hfind]
          rfl
        unfold completionStep
        rw [if_neg (by simp [hsome])]
        show aget cs0.completionTimestamps tag = _
        rw [ihc, hfind]
      | none =>
        rw [find?_append_of_none _ _ _ hfind]
        have hnone : aget cs0.completionTimestamps tag = none := by
          rw [ihc, hfind]
          rfl
        have hprevlt : (aget cs0.previousBuildProgress tag).getD 0 < 1 := by
          rw [ihp]
          cases hl : l.getLast? with
          | none => norm_num
          | some g =>
            have hmem : g ∈ l := List.mem_of_mem_getLast? hl
            have := List.find?_eq_none.mp hfind g hmem
            simp only [decide_eq_true_eq] at this
            simpa using lt_of_not_le this
        by_cases hp : (1 : Rat) ≤ f.2
        · unfold completionStep
          rw [if_pos ⟨by rw [hnone]; simp, hp⟩, if_pos hprevlt]
          show aget (aset cs0.completionTimestamps tag f.1) tag = _
          rw [aget_aset_self, List.find?_cons_of_pos _ (by simpa using hp)]
          rfl
        · unfold completionStep
          rw [if_neg (by rintro ⟨-, hc⟩; exact hp hc)]
          show aget cs0.completionTimestamps tag = _
          rw [hnone, List.find?_cons_of_neg _ (by simpa using hp), List.find?_nil]
          rfl
    · unfold completionStep
      rw [hlast]
      split <;> (try split) <;> simp [aget_aset_self]

/-- C5: the completed-frame record of a constructible entity is written at the
first observed frame whose build progress reaches 1.0 and is never
overwritten afterwards (first conjunct: the recorded value always equals the
first frame with progress ≥ 1; second: it is stable under any further
observations; third: the spec's Example B, progress [0.0, 0.4, 1.0] at frames
[0, 50, 100], records completed frame 100). -/
theorem c5_completed_frame_recorded_once (tag : Nat) (frames : List (Int × Rat)) :
    (aget (runCompletion tag frames).completionTimestamps tag =
      (frames.find? (fun f => decide (1 ≤ f.2))).map Prod.fst) ∧
    (∀ (gl : Int) (more : List (Int × Rat)),
      aget (runCompletion tag frames).completionTimestamps tag = some gl →
      aget (runCompletion tag (frames ++ more)).completionTimestamps tag = some gl) ∧
    aget (runCompletion 7 [(0, 0), (50, mkRat 2 5), (100, 1)]).completionTimestamps 7 =
      some 100 := by
  refine ⟨(runCompletion_characterisation tag frames).1, ?_, by decide⟩
  intro gl more h
  rw [(runCompletion_characterisation tag frames).1] at h
  rw [(runCompletion_characterisation tag (frames ++ more)).1]
  cases hfind : frames.find? (fun f => decide (1 ≤ f.2)) with
  | none => rw [hfind] at h; exact absurd h (by simp)
  | some g =>
    rw [find?_append_of_some _ _ _ _ hfind]
    rw [hfind] at h
    exact h


/-! ### `ParallelReplayProcessor.process_replay_batch`
(src_new/pipeline/parallel_processor.py, lines 102-147) -/

/-- The result-collection loop of `process_replay_batch`: jobs are consumed in
worker-completion order; a success is appended to `successful`, a failure (or
worker crash) is appended to `failed` with its error string. `outcome j`
models the worker's `(success, error)` for job `j`. -/
def processBatchOrder (outcome : Nat → Bool × String) (completionOrder : List Nat) :
    List Nat × List (Nat × String) :=
  completionOrder.foldl (fun res j =>
    if (outcome j).1 then (res.1 ++ [j], res.2)
    else (res.1, res.2 ++ [(j, (outcome j).2)])) ([], [])

/-- C8, counterexample. With three jobs submitted as [1, 2, 3], all
successful, and worker completion order [2, 1, 3] (a permutation of the
submission order — `as_completed` yields futures in completion order), the
returned `successful` list is [2, 1, 3], not the submission order [1, 2, 3]:
no reordering keyed by input identity happens. -/
theorem c8_completion_order_counterexample :
    processBatchOrder (fun _ => (true, "")) [2, 1, 3] = ([2, 1, 3], []) ∧
    ([2, 1, 3] : List Nat) ≠ [1, 2, 3] ∧
    ([2, 1, 3] : List Nat).Perm [1, 2, 3] := by
  refine ⟨rfl, by decide, by decide⟩

theorem processBatchOrder_foldl (outcome : Nat → Bool × String) :
    ∀ (completion : List Nat) (acc : List Nat × List (Nat × String)),
    completion.foldl (fun res j =>
      if (outcome j).1 then (res.1 ++ [j], res.2)
      else (res.1, res.2 ++ [(j, (outcome j).2)])) acc =
    (acc.1 ++ completion.filter (fun j => (outcome j).1),
     acc.2 ++ (completion.filter (fun j => !(outcome j).1)).map
       (fun j => (j, (outcome j).2))) := by
  intro completion
  induction completion with
  | nil => intro acc; simp
  | cons j t ih =>
    intro acc
    rw [List.foldl_cons, ih]
    by_cases h : (outcome j).1
    · simp [h, List.filter_cons]
    · simp [h, List.filter_cons]

theorem length_filter_add_length_not (p : Nat → Bool) (l : List Nat) :
    (l.filter p).length + (l.filter (fun x => !(p x))).length = l.length := by
  induction l with
  | nil => rfl
  | cons x t ih =>
    by_cases h : p x
    · simp [List.filter_cons, h]
      omega
    · simp [List.filter_cons, h]
      omega

/-- C8, amended. The per-job results are NOT reassembled into submission
order: `successful` is exactly the successful jobs in worker-completion
order, and `failed` is exactly the failed jobs in worker-completion order
paired with their error strings. The counts are right — every submitted job
appears exactly once across both lists (their lengths sum to the batch size,
and `successful` is a permutation of the successful subset of the submitted
jobs). -/
theorem c8_results_grouped_in_completion_order (outcome : Nat → Bool × String)
    (jobs completion : List Nat) (hperm : completion.Perm jobs) :
    (processBatchOrder outcome completion).1 =
      completion.filter (fun j => (outcome j).1) ∧
    (processBatchOrder outcome completion).2 =
      (completion.filter (fun j => !(outcome j).1)).map (fun j => (j, (outcome j).2)) ∧
    (processBatchOrder outcome completion).1.length +
      (processBatchOrder outcome completion).2.length = jobs.length ∧
    (processBatchOrder outcome completion).1.Perm
      (jobs.filter (fun j => (outcome j).1)) := by
  have h := processBatchOrder_foldl outcome completion ([], [])
  have h1 : (processBatchOrder outcome completion).1 =
      completion.filter (fun j => (outcome j).1) := by
    unfold processBatchOrder
    rw [h]
    simp
  have h2 : (processBatchOrder outcome completion).2 =
      (completion.filter (fun j => !(outcome j).1)).map (fun j => (j, (outcome j).2)) := by
    unfold processBatchOrder
    rw [h]
    simp
  refine ⟨h1, h2, ?_, ?_⟩
  · rw [h1, h2, List.length_map]
    rw [length_filter_add_length_not]
    exact hperm.length_eq
  · rw [h1]
    exact hperm.filter (fun j => (outcome j).1)

/-- The worker outcome of the witness scenario: job 2's input is corrupt. -/
def c8Outcome : Nat → Bool × String :=
  fun j => if j = 2 then (false, "corrupt input") else (true, "")

/-- Witness for `c8_results_grouped_in_completion_order`: 3 jobs, job 2
fails, completion order [3, 2, 1]; exactly 2 successes and 1 failure with a
non-empty error string. -/
theorem c8_results_grouped_in_completion_order_witness :
    ((processBatchOrder c8Outcome [3, 2, 1]).1 =
      [3, 2, 1].filter (fun j => (c8Outcome j).1) ∧
     (processBatchOrder c8Outcome [3, 2, 1]).2 =
      ([3, 2, 1].filter (fun j => !(c8Outcome j).1)).map
        (fun j => (j, (c8Outcome j).2)) ∧
     (processBatchOrder c8Outcome [3, 2, 1]).1.length +
      (processBatchOrder c8Outcome [3, 2, 1]).2.length = ([1, 2, 3] : List Nat).length ∧
     (processBatchOrder c8Outcome [3, 2, 1]).1.Perm
      ([1, 2, 3].filter (fun j => (c8Outcome j).1))) ∧
    (processBatchOrder c8Outcome [3, 2, 1]).1.length = 2 ∧
    (processBatchOrder c8Outcome [3, 2, 1]).2 = [(2, "corrupt input")] ∧
    "corrupt input" ≠ "" :=
  ⟨c8_results_grouped_in_completion_order c8Outcome [1, 2, 3] [3, 2, 1] (by decide),
   by decide, by decide, by decide⟩

/-! ### `OutputValidator` severity routing (src_new/utils/validation.py) -/

/-- A validation report: the `errors` and `warnings` lists and the per-check
booleans. -/
structure Report where
  errors : List String
  warnings : List String
  checks : List (String × Bool)
deriving DecidableEq

def Report.empty : Report := ⟨[], [], []⟩

/-- pandas `Series.duplicated().sum()`: the number of elements equal to some
earlier element. -/
def dupCount (l : List Int) : Nat :=
  (l.foldl (fun acc x => if x ∈ acc.1 then (acc.1, acc.2 + 1) else (acc.1 ++ [x], acc.2))
    (([] : List Int), (0 : Nat))).2

/-- `OutputValidator._check_duplicate_game_loops` (lines 403-415), on the
`game_loop` column: duplicates are appended to `errors`. -/
def checkDuplicateGameLoops (gameLoops : List Int) (report : Report) : Report :=
  let c := dupCount gameLoops
  if 0 < c then
    { report with
      errors := report.errors ++
        ["Found " ++ String.mk (natToDec c) ++ " duplicate game_loop values"],
      checks := aset report.checks "no_duplicate_game_loops" false }
  else { report with checks := aset report.checks "no_duplicate_game_loops" true }

/-- Count of consecutive decreases in a progress column; a NaN cell (modelled
`none`) makes the pandas `diff` NaN, which never counts as a decrease. -/
def decreaseCount : List (Option Rat) → Nat
  | [] => 0
  | [_] => 0
  | a :: b :: rest =>
    (match a, b with
     | some x, some y => if y < x then 1 else 0
     | _, _ => 0) + decreaseCount (b :: rest)

/-- The issue list of `_check_building_progress_monotonic` (lines 509-524):
range violations and decrease counts per `*_progress` column. -/
def progressIssues (progressCols : List (String × List (Option Rat))) : List String :=
  progressCols.foldl (fun iss col =>
    let iss1 :=
      if col.2.any (fun v => match v with | some q => decide (q < 0) | none => false) ||
         col.2.any (fun v => match v with | some q => decide (100 < q) | none => false) then
        iss ++ [col.1 ++ " has values outside range [0, 100]"]
      else iss
    if 0 < decreaseCount col.2 then
      iss1 ++ [col.1 ++ " decreases " ++ String.mk (natToDec (decreaseCount col.2)) ++
        " times (should be monotonic)"]
    else iss1) []

/-- `OutputValidator._check_building_progress_monotonic` (lines 500-531): the
first ten issues are appended to `errors` — not to `warnings`. -/
def checkBuildingProgressMonotonic (progressCols : List (String × List (Option Rat)))
    (report : Report) : Report :=
  let issues := progressIssues progressCols
  if issues ≠ [] then
    { report with
      errors := report.errors ++
        (issues.take 10).map (fun i => "Building progress violation: " ++ i),
      checks := aset report.checks "building_progress_monotonic" false }
  else { report with checks := aset report.checks "building_progress_monotonic" true }

/-- C9, counterexample. A single isolated non-monotonic progress sequence
(0 → 50 → 30) produces one entry in `errors` and none in `warnings`: the
validator treats non-monotonic progress as an error, not a downgraded
warning, pervasive or not. -/
theorem c9_monotonic_decrease_is_error_counterexample :
    (checkBuildingProgressMonotonic
      [("p1_b1_progress", [some 0, some 50, some 30])] Report.empty).errors.length = 1 ∧
    (checkBuildingProgressMonotonic
      [("p1_b1_progress", [some 0, some 50, some 30])] Report.empty).warnings = [] := by
  decide

/-- C9, amended. Duplicate frame keys are reported as errors (as the claim
says), and non-monotonic or out-of-range progress values are ALSO reported as
errors — the monotonicity check never touches `warnings`, and appends one
error per issue (capped at ten), with no pervasiveness threshold. -/
theorem c9_severity_routing :
    (∀ (gameLoops : List Int) (report : Report), 0 < dupCount gameLoops →
      (checkDuplicateGameLoops gameLoops report).errors.length =
        report.errors.length + 1 ∧
      (checkDuplicateGameLoops gameLoops report).warnings = report.warnings) ∧
    (∀ (cols : List (String × List (Option Rat))) (report : Report),
      (checkBuildingProgressMonotonic cols report).warnings = report.warnings ∧
      (progressIssues cols ≠ [] →
        (checkBuildingProgressMonotonic cols report).errors.length =
          report.errors.length + min 10 (progressIssues cols).length)) := by
  constructor
  · intro gameLoops report h
    unfold checkDuplicateGameLoops
    rw [if_pos h]
    simp
  · intro cols report
    constructor
    · unfold checkBuildingProgressMonotonic
      by_cases h : progressIssues cols ≠ []
      · rw [if_pos h]
      · rw [if_neg h]
    · intro h
      unfold checkBuildingProgressMonotonic
      rw [if_pos h]
      simp [List.length_take]

/-- Witness for `c9_severity_routing` at concrete inputs. -/
theorem c9_severity_routing_witness :
    ((checkDuplicateGameLoops [4, 4] Report.empty).errors.length =
       Report.empty.errors.length + 1 ∧
     (checkDuplicateGameLoops [4, 4] Report.empty).warnings = Report.empty.warnings) ∧
    ((checkBuildingProgressMonotonic
        [("p1_b1_progress", [some 0, some 50, some 30])] Report.empty).warnings =
       Report.empty.warnings ∧
     (progressIssues [("p1_b1_progress", [some 0, some 50, some 30])] ≠ [] →
       (checkBuildingProgressMonotonic
          [("p1_b1_progress", [some 0, some 50, some 30])] Report.empty).errors.length =
         Report.empty.errors.length +
           min 10 (progressIssues
             [("p1_b1_progress", [some 0, some 50, some 30])]).length)) :=
  ⟨c9_severity_routing.1 [4, 4] Report.empty (by decide),
   c9_severity_routing.2 [("p1_b1_progress", [some 0, some 50, some 30])] Report.empty⟩

end SC2
